import Mathlib

set_option linter.unusedVariables false

/-!
Verification of the UndoRecordSet (URS) engine of `undorecordset.c`.

This file gives a shallow embedding, in Lean, of the parts of the engine
needed to settle the claims: the close path (`UndoMarkClosed`,
`UndoMarkChunkClosed`, `UndoMarkPageClosed`), the insert path
(`UndoPrepareToInsert`, `reserve_physical_undo`, `UndoInsert`), destruction
(`UndoDestroy`), crash-recovery scanning
(`find_start_of_chunk_on_final_page`) and REDO (`UndoReplay`).

Machine integers are modelled as `Nat`; the C code's unsigned arithmetic
never overflows on the inputs the engine maintains (offsets are below the
1 TiB log size), and where a subtraction appears the theorems carry the
ordering hypothesis the code relies on.  Side effects (page writes, lock
traffic, WAL buf-data registration, callbacks) are made explicit as event
traces so that ordering claims can be stated.

Constants that live in headers that are not part of the sources
(`undopage.h`, `undolog.h`, `undorecordset_xlog.h`, `xact.h`,
`rmgrlist.h`) are modelled from the spec, as marked on each definition.
-/

namespace UndoRS

/-- Fixed page size in bytes (spec: "typically 8192; maximum 32768"). -/
def BLCKSZ : Nat := 8192

/-- Modelled from the spec: size of the per-page header maintained by the
page codec (`undopage.h` is not among the sources).  The spec lists the
fields (LSN, insertion_point, first_chunk, continue_chunk, pd_lower) but
not the padded struct size; the properties proved below use only
`0 < SizeOfUndoPageHeaderData` and `SizeOfUndoPageHeaderData + 8 ≤ BLCKSZ`,
so the exact value is immaterial. -/
def SizeOfUndoPageHeaderData : Nat := 24

/-- Modelled from the spec: on-disk chunk header layout is
`{ size : u64, previous_chunk : URP (8 bytes), type : u8 (padded) }`,
hence 24 bytes with padding. -/
def SizeOfUndoRecordSetChunkHeader : Nat := 24

/-- sizeof(UndoLogOffset), the width of the chunk `size` field. -/
def sizeofUndoLogOffset : Nat := 8

/-- Modelled from the spec: each undo log owns a 1 TiB address space. -/
def UndoLogMaxSize : Nat := 2 ^ 40

/-- Modelled from the spec: an undo record pointer packs `(logno, offset)`
into a 64-bit value; the offset part addresses the 1 TiB log space. -/
def MakeUndoRecPtr (logno offset : Nat) : Nat :=
  logno * UndoLogMaxSize + offset

/-- Modelled from the spec: the invalid undo record pointer. -/
def InvalidUndoRecPtr : Nat := 0

/-- Extract the log number of an undo record pointer. -/
def UndoRecPtrGetLogNo (urp : Nat) : Nat := urp / UndoLogMaxSize

/-- Extract the within-log offset of an undo record pointer. -/
def UndoRecPtrGetOffset (urp : Nat) : Nat := urp % UndoLogMaxSize

/-- Page offset of an undo record pointer. -/
def UndoRecPtrGetPageOffset (urp : Nat) : Nat := urp % BLCKSZ

/-- Block number of an undo record pointer. -/
def UndoRecPtrGetBlockNum (urp : Nat) : Nat :=
  UndoRecPtrGetOffset urp / BLCKSZ

/-- Usable (non-page-header) bytes per page. -/
def UndoLogUsableBytesPerPage : Nat := BLCKSZ - SizeOfUndoPageHeaderData

/-- Modelled from the spec: URP offsets are counted in "usable bytes",
skipping the per-page header; this converts an offset to its usable byte
number. -/
def UndoLogOffsetToUsableByteNo (offset : Nat) : Nat :=
  (offset % BLCKSZ - SizeOfUndoPageHeaderData) +
    (offset / BLCKSZ) * UndoLogUsableBytesPerPage

/-- Modelled from the spec: inverse direction of the usable-byte
conversion. -/
def UndoLogOffsetFromUsableByteNo (n : Nat) : Nat :=
  (n / UndoLogUsableBytesPerPage) * BLCKSZ +
    SizeOfUndoPageHeaderData + n % UndoLogUsableBytesPerPage

/-- Modelled from the spec: advance a log offset by `n` usable bytes,
skipping page headers as needed. -/
def UndoLogOffsetPlusUsableBytes (offset n : Nat) : Nat :=
  UndoLogOffsetFromUsableByteNo (UndoLogOffsetToUsableByteNo offset + n)

/-- Modelled from the spec: advance an undo record pointer by `n` usable
bytes within its log. -/
def UndoRecPtrPlusUsableBytes (urp n : Nat) : Nat :=
  MakeUndoRecPtr (UndoRecPtrGetLogNo urp)
    (UndoLogOffsetPlusUsableBytes (UndoRecPtrGetOffset urp) n)

/-! ## WAL buf-data flags (modelled from the spec, §4.9)

`undorecordset_xlog.h` is not among the sources; the spec lists the
per-buffer flags `INSERT, CREATE, ADD_CHUNK, ADD_PAGE, CLOSE_CHUNK, CLOSE,
CLOSE_MULTI_CHUNK`, which we assign consecutive bits. -/

def URS_XLOG_INSERT : Nat := 0x01
def URS_XLOG_CREATE : Nat := 0x02
def URS_XLOG_ADD_CHUNK : Nat := 0x04
def URS_XLOG_ADD_PAGE : Nat := 0x08
def URS_XLOG_CLOSE_CHUNK : Nat := 0x10
def URS_XLOG_CLOSE : Nat := 0x20
def URS_XLOG_CLOSE_MULTI_CHUNK : Nat := 0x40

/-- Test a flag bit in a buf-data flag word. -/
def hasFlag (flags bit : Nat) : Bool := flags &&& bit ≠ 0

/-- URS types (`URST_TRANSACTION`, `URST_FOO` from the sources / spec). -/
def URST_TRANSACTION : Nat := 1
def URST_FOO : Nat := 2

/-- `get_type_header_size` from the source: type-specific header sizes. -/
def get_type_header_size (type : Nat) : Nat :=
  if type = URST_TRANSACTION then 8
  else if type = URST_FOO then 4
  else 0

/-! ## Data model -/

/-- The on-page chunk header (`UndoRecordSetChunkHeader`). -/
structure UndoRecordSetChunkHeader where
  size : Nat
  previous_chunk : Nat
  type : Nat
  deriving Repr, DecidableEq

instance : Inhabited UndoRecordSetChunkHeader := ⟨⟨0, 0, 0⟩⟩

/-- Shared-memory per-log slot state (`UndoLogSlot` / `UndoLogMetaData`),
restricted to the fields the engine reads and writes. -/
structure UndoLogSlotState where
  logno : Nat
  insert : Nat          -- meta.insert
  size : Nat            -- meta.size
  endOffset : Nat       -- slot->end
  force_truncate : Bool
  deriving Repr, DecidableEq

/-- Per-buffer WAL buf-data (`UndoRecordSetXLogBufData`). -/
structure UndoRecordSetXLogBufData where
  flags : Nat
  insert_page_offset : Nat
  chunk_header_location : Nat
  previous_chunk_header_location : Nat
  urs_type : Nat
  type_header : List Nat
  type_header_size : Nat
  chunk_size_page_offset : Nat
  chunk_size : Nat
  first_chunk_header_location : Nat
  deriving Repr, DecidableEq

/-- The all-zero buf-data value (`{0}` initialisation in C). -/
def emptyBufData : UndoRecordSetXLogBufData :=
  ⟨0, 0, 0, 0, 0, [], 0, 0, 0, 0⟩

/-- A pinned buffer held by a URS (`UndoBuffer`). -/
structure UndoBuffer where
  logno : Nat
  block : Nat
  is_new : Bool
  needs_init : Bool
  bufdata : UndoRecordSetXLogBufData
  deriving Repr, DecidableEq

/-- Per-chunk bookkeeping (`UndoRecordSetChunk`).  The C struct holds a
pointer to the chunk's `UndoLogSlot`; we store the log number and look the
slot up in the shared slot table. -/
structure UndoRecordSetChunk where
  slot_logno : Nat
  chunk_header_written : Bool
  chunk_header_offset : Nat
  chunk_header_buffer_index : Int × Int   -- -1 means "none", as in C
  deriving Repr, DecidableEq

instance : Inhabited UndoRecordSetChunk :=
  ⟨⟨0, false, 0, (-1, -1)⟩⟩

inductive UndoRecordSetState where
  | URS_STATE_CLEAN
  | URS_STATE_DIRTY
  | URS_STATE_CLOSED
  deriving Repr, DecidableEq

open UndoRecordSetState

/-- The in-memory `UndoRecordSet`. -/
structure UndoRecordSet where
  type : Nat
  needsWAL : Bool                 -- persistence == RELPERSISTENCE_PERMANENT
  chunks : List UndoRecordSetChunk
  buffers : List UndoBuffer
  need_chunk_header : Bool
  type_header : List Nat
  type_header_size : Nat
  need_type_header : Bool
  begin_ : Nat                    -- urs->begin
  slot : Option Nat               -- active slot's logno, none when NULL
  chunk_start : Nat
  recent_end : Nat
  state : UndoRecordSetState
  nestingLevel : Nat
  deriving Repr, DecidableEq

/-- Shared-memory slot table, keyed by log number. -/
def SlotTable := Nat → UndoLogSlotState

/-- Update the slot with the given log number (the C code updates through
the `UndoLogSlot` pointer; the table is keyed by `logno`). -/
def setSlot (t : SlotTable) (logno : Nat) (s : UndoLogSlotState) :
    SlotTable :=
  fun n => if n = logno then s else t n

/-! ## Event traces

Side effects are recorded as events so that ordering properties
("update performed under the exclusive meta lock", "callback delivered
before the second overwrite") can be stated. -/

inductive LockMode where
  | LW_SHARED
  | LW_EXCLUSIVE
  deriving Repr, DecidableEq

inductive Ev where
  /-- A `UndoPageOverwrite` call patching the chunk `size` field:
  log, block, page offset, data offset, bytes written, value. -/
  | overwrite (logno block page_offset data_offset bytes value : Nat)
  /-- An `LWLockAcquire` on a slot's `meta_lock`. -/
  | lockAcquire (logno : Nat) (mode : LockMode)
  /-- An `LWLockRelease` on a slot's `meta_lock`. -/
  | lockRelease (logno : Nat)
  /-- Store to the shared `slot->meta.insert`. -/
  | setInsert (logno value : Nat)
  /-- A `UndoPageInsertHeader` call: block, page offset, input offset,
  bytes, the chunk header value being written. -/
  | insertHeader (block page_offset input_offset bytes : Nat)
      (header : UndoRecordSetChunkHeader)
  /-- A `UndoPageInsertRecord` call: block, page offset, input offset,
  bytes written. -/
  | insertRecord (block page_offset input_offset bytes : Nat)
  /-- `MarkBufferDirty` on a buffer index. -/
  | markDirty (index : Nat)
  /-- `UndoLogPut`, returning a slot to the free list. -/
  | slotPut (logno : Nat)
  /-- `XactUndoCloseRecordSet` callback delivered in REDO or recovery. -/
  | xactCallback (type_header : List Nat) (begin_ endUrp : Nat)
      (isCommit isPrepare : Bool)
  deriving Repr, DecidableEq

/-! ## The close path

`UndoMarkPageClosed` patches the portion of the 8-byte chunk `size` field
that falls on one page, via the page codec's `UndoPageOverwrite`.  The
codec (`undopage.c`, not among the sources) returns the number of bytes
written on this page; per the spec (§4.1) all codec primitives return
`min(BLCKSZ − page_off, total − in_off)`. -/

/-- Modelled from the spec: the byte count returned by
`UndoPageOverwrite(page, page_offset, data_offset, length, data)`. -/
def UndoPageOverwriteBytes (page_offset data_offset length : Nat) : Nat :=
  min (BLCKSZ - page_offset) (length - data_offset)

/-- `UndoMarkPageClosed`: patch the part of `size` on one page and mark the
buffer dirty; returns bytes written and the events performed. -/
def UndoMarkPageClosed (urs : UndoRecordSet) (chunk : UndoRecordSetChunk)
    (chbidx : Nat) (page_offset data_offset size : Nat) :
    Nat × List Ev :=
  let index : Int :=
    if chbidx = 0 then chunk.chunk_header_buffer_index.1
    else chunk.chunk_header_buffer_index.2
  let bytes_on_this_page :=
    UndoPageOverwriteBytes page_offset data_offset sizeofUndoLogOffset
  (bytes_on_this_page,
    [Ev.overwrite chunk.slot_logno
        (chunk.chunk_header_offset / BLCKSZ + chbidx)
        page_offset data_offset bytes_on_this_page size,
     Ev.markDirty index.toNat])

/-- The `while (data_offset < sizeof(size))` loop of
`UndoMarkChunkClosed`.  Recursion is on the remaining byte count; the C
loop terminates because each overwrite writes at least one byte
(`page_offset < BLCKSZ`). -/
def markChunkClosedLoop (urs : UndoRecordSet) (chunk : UndoRecordSetChunk)
    (chbidx page_offset data_offset size : Nat) : List Ev :=
  if h : data_offset < sizeofUndoLogOffset then
    if h2 : page_offset < BLCKSZ then
      (UndoMarkPageClosed urs chunk chbidx page_offset data_offset size).2 ++
        markChunkClosedLoop urs chunk (chbidx + 1) SizeOfUndoPageHeaderData
          (data_offset +
            (UndoMarkPageClosed urs chunk chbidx page_offset data_offset
              size).1)
          size
    else []   -- unreachable: the code always passes page_offset < BLCKSZ
  else []
  termination_by sizeofUndoLogOffset - data_offset
  decreasing_by
    simp only [UndoMarkPageClosed, UndoPageOverwriteBytes] at *
    simp only [sizeofUndoLogOffset] at *
    omega

/-- Stage the close on the first affected buffer's buf-data
(the `if (URSNeedsWAL(urs))` block of `UndoMarkChunkClosed`). -/
def stageCloseBufData (urs : UndoRecordSet) (chunk : UndoRecordSetChunk)
    (close_urs : Bool) (page_offset size : Nat) : UndoRecordSet :=
  if urs.needsWAL then
    let idx := chunk.chunk_header_buffer_index.1.toNat
    let buffers := urs.buffers.mapIdx (fun i b =>
      if i = idx then
        let bd := b.bufdata
        let bd := { bd with
          flags := bd.flags ||| URS_XLOG_CLOSE_CHUNK,
          chunk_size_page_offset := page_offset,
          chunk_size := size }
        let bd :=
          if close_urs then
            let bd := { bd with
              flags := bd.flags ||| URS_XLOG_CLOSE,
              urs_type := urs.type,
              type_header := urs.type_header,
              type_header_size := urs.type_header_size }
            if urs.chunks.length > 1 then
              { bd with
                flags := bd.flags ||| URS_XLOG_CLOSE_MULTI_CHUNK,
                first_chunk_header_location :=
                  MakeUndoRecPtr (urs.chunks.headI.slot_logno)
                    (urs.chunks.headI.chunk_header_offset) }
            else bd
          else bd
        { b with bufdata := bd }
      else b)
    { urs with buffers := buffers }
  else urs

/-- `UndoMarkChunkClosed`: compute `size = insert − header`, stage the
close buf-data, and loop over `UndoMarkPageClosed`. -/
def UndoMarkChunkClosed (slots : SlotTable) (urs : UndoRecordSet)
    (chunk : UndoRecordSetChunk) (close_urs : Bool) :
    UndoRecordSet × List Ev :=
  let header := chunk.chunk_header_offset
  let insert := (slots chunk.slot_logno).insert
  let size := insert - header
  let page_offset := header % BLCKSZ
  let urs := stageCloseBufData urs chunk close_urs page_offset size
  (urs, markChunkClosedLoop urs chunk 0 page_offset 0 size)

/-- `UndoMarkClosed`: if the set is dirty, close the active (final) chunk
and transition to `URS_STATE_CLOSED`; otherwise do nothing. -/
def UndoMarkClosed (slots : SlotTable) (urs : UndoRecordSet) :
    UndoRecordSet × List Ev :=
  if urs.state = URS_STATE_DIRTY then
    let chunk := urs.chunks.getLastD default
    let r := UndoMarkChunkClosed slots urs chunk true
    ({ r.1 with state := URS_STATE_CLOSED }, r.2)
  else
    (urs, [])

/-! ## The insert path (`UndoInsert`)

The page codec's `UndoPageInsertHeader` / `UndoPageInsertRecord`
(`undopage.c`, not among the sources) write the portion of the combined
header (or record) that fits on the page; per the spec (§4.1) they return
`min(BLCKSZ − page_off, total − in_off)`. -/

/-- Modelled from the spec: bytes written by `UndoPageInsertHeader` /
`UndoPageInsertRecord` for a total payload of `total` bytes. -/
def UndoPageInsertBytes (page_offset input_offset total : Nat) : Nat :=
  min (BLCKSZ - page_offset) (total - input_offset)

instance : Inhabited UndoBuffer :=
  ⟨{ logno := 0, block := 0, is_new := false, needs_init := false,
     bufdata := emptyBufData }⟩

/-- `init_if_needed`: initialise a zeroed page on first use. -/
def init_if_needed (b : UndoBuffer) : UndoBuffer :=
  if b.needs_init then { b with needs_init := false } else b

/-- `register_insert_page_offset_if_needed`: record the insertion point of
the first insertion by this WAL record into the buffer. -/
def register_insert_page_offset_if_needed (b : UndoBuffer)
    (insert_page_offset : Nat) : UndoBuffer :=
  if hasFlag b.bufdata.flags URS_XLOG_INSERT then b
  else
    { b with bufdata :=
      { b.bufdata with
        insert_page_offset := insert_page_offset,
        flags := b.bufdata.flags ||| URS_XLOG_INSERT } }

/-- `register_new_page`: stage `ADD_PAGE` buf-data on a buffer whose write
starts at the page boundary. -/
def register_new_page (b : UndoBuffer) (chunk_type : Nat)
    (chunk_header_location : Nat) : UndoBuffer :=
  { b with bufdata :=
    { b.bufdata with
      flags := b.bufdata.flags ||| URS_XLOG_ADD_PAGE,
      chunk_header_location := chunk_header_location,
      urs_type := chunk_type } }

/-- Update the buffer at one index of a buffer list. -/
def updBuf (bs : List UndoBuffer) (i : Nat) (f : UndoBuffer → UndoBuffer) :
    List UndoBuffer :=
  bs.mapIdx (fun j b => if j = i then f b else b)

/-- The loop-carried state of `UndoInsert`'s page-walking loops. -/
structure InsLoopState where
  buffers : List UndoBuffer
  buffer_index : Nat
  page_offset : Nat
  deriving Repr, DecidableEq

/-- Stage `CREATE` buf-data (first chunk of a new URS) on a buffer. -/
def stageCreateBufData (b : UndoBuffer) (urs_type : Nat)
    (type_header : List Nat) (type_header_size : Nat) : UndoBuffer :=
  { b with bufdata :=
    { b.bufdata with
      flags := b.bufdata.flags ||| URS_XLOG_CREATE,
      urs_type := urs_type,
      type_header := type_header,
      type_header_size := type_header_size } }

/-- Stage `ADD_CHUNK` buf-data (new chunk of an existing URS). -/
def stageAddChunkBufData (b : UndoBuffer) (urs_type : Nat)
    (previous_chunk : Nat) : UndoBuffer :=
  { b with bufdata :=
    { b.bufdata with
      flags := b.bufdata.flags ||| URS_XLOG_ADD_CHUNK,
      urs_type := urs_type,
      previous_chunk_header_location := previous_chunk } }

/-- The header-writing loop of `UndoInsert` (the `for (;;)` under
`if (urs->need_chunk_header)`).  `all_header_size` is the combined chunk
header and type header size.  The C loop terminates because
`buffer_index` grows on every iteration until the bounds check raises
ERROR; `fuel` is a structural bound on the iteration count, and callers
pass `buffers.length + 1` so the bounds check always fires first (the
fuel-exhausted branch returns the same ERROR and is unreachable). -/
def undoInsertHeaderLoop (needsWAL : Bool) (urs_type : Nat)
    (need_type_header : Bool) (type_header : List Nat)
    (type_header_size : Nat) (chunk_header : UndoRecordSetChunkHeader)
    (chunk_start : Nat) (all_header_size : Nat) :
    Nat → InsLoopState → Nat → Except String (InsLoopState × List Ev)
  | 0, _, _ => .error "ran out of buffers while inserting undo record headers"
  | fuel + 1, st, input_offset =>
    if st.buffer_index < st.buffers.length then
      let b := init_if_needed (st.buffers.getD st.buffer_index default)
      let b :=
        if needsWAL then
          let b := register_insert_page_offset_if_needed b st.page_offset
          if input_offset = 0 then
            if need_type_header then
              stageCreateBufData b urs_type type_header type_header_size
            else
              stageAddChunkBufData b urs_type chunk_header.previous_chunk
          else b
        else b
      let b :=
        if st.page_offset = SizeOfUndoPageHeaderData then
          register_new_page b urs_type chunk_start
        else b
      let bytes_written :=
        UndoPageInsertBytes st.page_offset input_offset all_header_size
      let evs := [Ev.insertHeader st.buffer_index st.page_offset
          input_offset bytes_written chunk_header,
        Ev.markDirty st.buffer_index]
      let buffers := updBuf st.buffers st.buffer_index (fun _ => b)
      if all_header_size ≤ input_offset + bytes_written then
        .ok ({ buffers := buffers, buffer_index := st.buffer_index,
               page_offset := st.page_offset + bytes_written }, evs)
      else
        match undoInsertHeaderLoop needsWAL urs_type need_type_header
            type_header type_header_size chunk_header chunk_start
            all_header_size fuel
            { buffers := buffers, buffer_index := st.buffer_index + 1,
              page_offset := SizeOfUndoPageHeaderData }
            (input_offset + bytes_written) with
        | .ok (st', evs') => .ok (st', evs ++ evs')
        | .error e => .error e
    else .error "ran out of buffers while inserting undo record headers"

/-- The record-writing loop of `UndoInsert` (the second `for (;;)`);
`fuel` plays the same role as in `undoInsertHeaderLoop`. -/
def undoInsertRecordLoop (needsWAL : Bool) (urs_type : Nat)
    (record_size : Nat) (chunk_start : Nat) :
    Nat → InsLoopState → Nat → Except String (InsLoopState × List Ev)
  | 0, _, _ => .error "ran out of buffers while inserting undo record"
  | fuel + 1, st, input_offset =>
    if st.buffer_index < st.buffers.length then
      let b := init_if_needed (st.buffers.getD st.buffer_index default)
      let b :=
        if needsWAL then
          register_insert_page_offset_if_needed b st.page_offset
        else b
      let b :=
        if st.page_offset = SizeOfUndoPageHeaderData then
          register_new_page b urs_type chunk_start
        else b
      let bytes_written :=
        UndoPageInsertBytes st.page_offset input_offset record_size
      let evs := [Ev.insertRecord st.buffer_index st.page_offset
          input_offset bytes_written,
        Ev.markDirty st.buffer_index]
      let buffers := updBuf st.buffers st.buffer_index (fun _ => b)
      if record_size ≤ input_offset + bytes_written then
        .ok ({ buffers := buffers, buffer_index := st.buffer_index,
               page_offset := st.page_offset + bytes_written }, evs)
      else
        match undoInsertRecordLoop needsWAL urs_type record_size chunk_start
            fuel
            { buffers := buffers, buffer_index := st.buffer_index + 1,
              page_offset := SizeOfUndoPageHeaderData }
            (input_offset + bytes_written) with
        | .ok (st', evs') => .ok (st', evs ++ evs')
        | .error e => .error e
    else .error "ran out of buffers while inserting undo record"

/-- Mark the final chunk's header as written (`chunk_header_written =
true`, set inside the C header loop on each iteration). -/
def markHeaderWritten (chunks : List UndoRecordSetChunk) :
    List UndoRecordSetChunk :=
  chunks.mapIdx (fun i c =>
    if i + 1 = chunks.length then { c with chunk_header_written := true }
    else c)

/-- Clear a chunk's header-buffer bookkeeping
(`chunk_header_buffer_index[0] = -1` after the forced close). -/
def clearHeaderBufIdx (chunks : List UndoRecordSetChunk) (i : Nat) :
    List UndoRecordSetChunk :=
  chunks.mapIdx (fun j c =>
    if j = i then { c with chunk_header_buffer_index :=
      (-1, c.chunk_header_buffer_index.2) }
    else c)

/-- The shared-memory insert advance of `UndoInsert`: the new value of
`slot->meta.insert` (its old value advanced by the usable-byte count of
the headers written plus the record size). -/
def undoInsertNewInsert (slots : SlotTable) (urs : UndoRecordSet)
    (logno record_size : Nat) : Nat :=
  UndoLogOffsetPlusUsableBytes (slots logno).insert
    (((if urs.need_type_header then urs.type_header_size else 0) +
        (if urs.need_chunk_header then SizeOfUndoRecordSetChunkHeader
          else 0)) + record_size)

/-- The lock-protected shared-memory update performed by `UndoInsert`:
acquire the slot's `meta_lock` exclusively, store the advanced insert
pointer, release. -/
def insertLockEvents (slots : SlotTable) (urs : UndoRecordSet)
    (logno record_size : Nat) : List Ev :=
  [Ev.lockAcquire logno LockMode.LW_EXCLUSIVE,
   Ev.setInsert logno (undoInsertNewInsert slots urs logno record_size),
   Ev.lockRelease logno]

/-- The chunk header `UndoInsert` constructs when `need_chunk_header` is
set: `size = 0` (still open), `previous_chunk` invalid for the set's first
chunk and otherwise the URP of the preceding chunk's header. -/
def insertChunkHeader (urs : UndoRecordSet) : UndoRecordSetChunkHeader :=
  { size := 0,
    previous_chunk :=
      if urs.chunks.length > 1 then
        MakeUndoRecPtr
          (urs.chunks.getD (urs.chunks.length - 2) default).slot_logno
          (urs.chunks.getD (urs.chunks.length - 2)
            default).chunk_header_offset
      else InvalidUndoRecPtr,
    type := urs.type }

/-- `UndoInsert`: append a record (and any required headers) to the undo
log.  The C function's `Assert`s (active slot, at least one pinned buffer,
begin past the page header) are modelled as errors; the claims quantify
over successful runs.  Returns the updated slot table and URS together
with the event trace. -/
def UndoInsert (slots : SlotTable) (urs : UndoRecordSet)
    (record_size : Nat) :
    Except String (SlotTable × UndoRecordSet × List Ev) :=
  let type_header_size :=
    if urs.need_type_header then urs.type_header_size else 0
  let chunk_header_size :=
    if urs.need_chunk_header then SizeOfUndoRecordSetChunkHeader else 0
  let all_header_size := type_header_size + chunk_header_size
  match urs.slot with
  | none => .error "assertion failed: urs->slot"
  | some logno =>
    if urs.buffers.length < 1 then
      .error "assertion failed: urs->nbuffers >= 1"
    else if urs.begin_ % BLCKSZ < SizeOfUndoPageHeaderData then
      .error "assertion failed: page_offset >= SizeOfUndoPageHeaderData"
    else
      let st0 : InsLoopState :=
        { buffers := urs.buffers, buffer_index := 0,
          page_offset := urs.begin_ % BLCKSZ }
      -- Write any required chunk header.
      let headerStep : Except String
          (InsLoopState × List Ev × UndoRecordSetChunkHeader) :=
        if urs.need_chunk_header then
          let chunk_header := insertChunkHeader urs
          match undoInsertHeaderLoop urs.needsWAL urs.type
              urs.need_type_header urs.type_header type_header_size
              chunk_header urs.chunk_start all_header_size
              (st0.buffers.length + 1) st0 0 with
          | .ok (st, evs) => .ok (st, evs, chunk_header)
          | .error e => .error e
        else .ok (st0, [], default)
      match headerStep with
      | .error e => .error e
      | .ok (st1, headerEvs, _) =>
        -- Write out the record.
        match undoInsertRecordLoop urs.needsWAL urs.type record_size
            urs.chunk_start (st1.buffers.length + 1) st1 0 with
        | .error e => .error e
        | .ok (st2, recordEvs) =>
          let urs1 :=
            { urs with
              buffers := st2.buffers,
              chunks :=
                if urs.need_chunk_header then markHeaderWritten urs.chunks
                else urs.chunks,
              state := URS_STATE_DIRTY }
          -- Advance the insert pointer in shared memory.
          let slot := slots logno
          let newInsert := undoInsertNewInsert slots urs logno record_size
          let slots1 := setSlot slots logno { slot with insert := newInsert }
          let lockEvs := insertLockEvents slots urs logno record_size
          -- Forced close of the previous chunk, if the planner flagged it.
          let prevIdx := urs1.chunks.length - 2
          let closeStep : UndoRecordSet × List Ev :=
            if urs1.chunks.length > 1 ∧
                (urs1.chunks.getD prevIdx default).chunk_header_buffer_index.1
                  ≠ -1 then
              let r := UndoMarkChunkClosed slots1 urs1
                (urs1.chunks.getD prevIdx default) false
              ({ r.1 with chunks := clearHeaderBufIdx r.1.chunks prevIdx },
                r.2)
            else (urs1, [])
          let urs2 := closeStep.1
          .ok (slots1,
            { urs2 with need_chunk_header := false,
                        need_type_header := false },
            headerEvs ++ recordEvs ++ lockEvs ++ closeStep.2)

/-! ## The planner (`UndoPrepareToInsert`)

The undo-log allocator (`undolog.c`, not among the sources) supplies fresh
slots via `UndoLogGetForPersistence` and extends physical backing via
`UndoLogAdjustPhysicalRange`; both are modelled from the spec, the former
as an explicit oracle list of fresh slots passed to the planner. -/

/-- The header-size computation at the top of `UndoPrepareToInsert`'s
loop. -/
def prepare_header_size (urs : UndoRecordSet) : Nat :=
  if ¬urs.need_chunk_header then 0
  else if ¬urs.need_type_header then SizeOfUndoRecordSetChunkHeader
  else SizeOfUndoRecordSetChunkHeader + urs.type_header_size

/-- `reserve_physical_undo`: return a pointer backed by enough physical
space for `total_size` bytes, or `InvalidUndoRecPtr` if the active log is
full (after truncating it and dropping the active slot).
`UndoLogTruncate`'s effect on the relinquished log's own metadata is
external and not modelled; `UndoLogAdjustPhysicalRange` is modelled from
the spec as extending the physical `end` to `new_insert`. -/
def reserve_physical_undo (slots : SlotTable) (urs : UndoRecordSet)
    (logno total_size : Nat) : SlotTable × UndoRecordSet × Nat :=
  let slot := slots logno
  if slot.force_truncate then
    (setSlot slots logno { slot with force_truncate := false },
     { urs with slot := none }, InvalidUndoRecPtr)
  else
    let new_insert := UndoLogOffsetPlusUsableBytes slot.insert total_size
    -- The fast path: we already know there is enough space.
    if new_insert ≤ urs.recent_end then
      (slots, urs, MakeUndoRecPtr logno slot.insert)
    else
      -- Under the meta lock (shared): refresh recent_end and read size.
      let urs1 := { urs with recent_end := slot.endOffset }
      if new_insert ≤ slot.endOffset then
        (slots, urs1, MakeUndoRecPtr logno slot.insert)
      else if new_insert ≤ slot.size then
        (setSlot slots logno
          { slot with endOffset := max slot.endOffset new_insert },
         urs1, MakeUndoRecPtr logno slot.insert)
      else
        (slots, { urs1 with slot := none }, InvalidUndoRecPtr)

/-- `create_new_chunk`: attach to a fresh undo log (from the allocator
oracle) and append a chunk record whose header offset is the new log's
insert position. -/
def create_new_chunk (slots : SlotTable) (urs : UndoRecordSet)
    (newSlot : UndoLogSlotState) : SlotTable × UndoRecordSet :=
  (setSlot slots newSlot.logno newSlot,
   { urs with
     need_chunk_header := true,
     recent_end := 0,
     slot := some newSlot.logno,
     chunks := urs.chunks ++
       [{ slot_logno := newSlot.logno, chunk_header_written := false,
          chunk_header_offset := newSlot.insert,
          chunk_header_buffer_index := (-1, -1) }],
     chunk_start := MakeUndoRecPtr newSlot.logno newSlot.insert })

/-- One iteration of `UndoPrepareToInsert`'s `for (;;)` loop up to the
point where a new chunk would be needed: `.inr` is the successful
reservation (slots, urs, begin, header_size, chunk_number_to_close);
`.inl` is the state from which `create_new_chunk` proceeds. -/
def prepareAttempt (slots : SlotTable) (urs : UndoRecordSet)
    (record_size : Nat) (cntc : Option Nat) :
    (SlotTable × UndoRecordSet × Option Nat) ⊕
      (SlotTable × UndoRecordSet × Nat × Nat × Option Nat) :=
  let header_size := prepare_header_size urs
  let total_size := record_size + header_size
  match urs.slot with
  | some logno =>
    let r := reserve_physical_undo slots urs logno total_size
    if r.2.2 ≠ InvalidUndoRecPtr then
      .inr (r.1, r.2.1, r.2.2, header_size, cntc)
    else
      -- The active chunk is full: remember it for closing if its header
      -- was written, else drop the unused chunk entry.
      let urs' := r.2.1
      if (urs'.chunks.getLastD default).chunk_header_written then
        .inl (r.1, urs', some (urs'.chunks.length - 1))
      else
        .inl (r.1, { urs' with chunks := urs'.chunks.dropLast }, cntc)
  | none => .inl (slots, urs, cntc)

/-- The `for (;;)` loop of `UndoPrepareToInsert`: try to reserve space in
the active log, creating chunks in fresh logs from the allocator oracle
until a reservation succeeds.  In C the loop blocks in the allocator
instead of failing; running out of oracle entries is modelled as an
error. -/
def undoPrepareLoop (record_size : Nat) :
    List UndoLogSlotState → SlotTable → UndoRecordSet → Option Nat →
    Except String (SlotTable × UndoRecordSet × Nat × Nat × Option Nat)
  | [], slots, urs, cntc =>
    match prepareAttempt slots urs record_size cntc with
    | .inr done => .ok done
    | .inl _ => .error "allocator oracle exhausted"
  | s :: rest, slots, urs, cntc =>
    match prepareAttempt slots urs record_size cntc with
    | .inr done => .ok done
    | .inl (slots', urs', cntc') =>
      let cn := create_new_chunk slots' urs' s
      undoPrepareLoop record_size rest cn.1 cn.2 cntc'

/-- The buffer-pinning loop of `UndoPrepareToInsert`: pin every page of
the reserved range, using a zeroing read (`is_new`/`needs_init`) for
pages whose first byte is being written.  `fuel` is a structural bound;
callers pass `total_size`, which suffices since every iteration consumes
at least one byte. -/
def pinBuffersLoop (logno : Nat) :
    Nat → Nat → Nat → Nat → List UndoBuffer
  | 0, _, _, _ => []
  | fuel + 1, total_size, block, offset =>
    if 0 < total_size then
      let is_new := offset = SizeOfUndoPageHeaderData
      let bytes_on_this_page := min (BLCKSZ - offset) total_size
      { logno := logno, block := block, is_new := is_new,
        needs_init := is_new, bufdata := emptyBufData } ::
        pinBuffersLoop logno fuel (total_size - bytes_on_this_page)
          (block + 1) SizeOfUndoPageHeaderData
    else []

/-- `find_or_read_buffer`: linear search of the pinned buffers by
`(logno, block)`; pin (append) a new one if absent.  Returns the index. -/
def find_or_read_buffer (urs : UndoRecordSet) (logno block : Nat) :
    UndoRecordSet × Nat :=
  match urs.buffers.findIdx?
      (fun b => b.logno == logno && b.block == block) with
  | some i => (urs, i)
  | none =>
    ({ urs with buffers := urs.buffers ++
        [{ logno := logno, block := block, is_new := false,
           needs_init := false, bufdata := emptyBufData }] },
     urs.buffers.length)

/-- Record a chunk's header-buffer indices. -/
def setChunkBufIdx (chunks : List UndoRecordSetChunk) (i : Nat)
    (v : Int × Int) : List UndoRecordSetChunk :=
  chunks.mapIdx (fun j c =>
    if j = i then { c with chunk_header_buffer_index := v } else c)

/-- `UndoPrepareToMarkChunkClosed`: pin the one or two buffers that hold
the chunk's `size` field (two when the 8-byte field straddles a page
boundary) and record their indices. -/
def UndoPrepareToMarkChunkClosed (urs : UndoRecordSet) (i : Nat) :
    UndoRecordSet :=
  let chunk := urs.chunks.getD i default
  let header := chunk.chunk_header_offset
  let header_block := header / BLCKSZ
  let header_offset := header % BLCKSZ
  let r0 := find_or_read_buffer urs chunk.slot_logno header_block
  if header_offset ≤ BLCKSZ - sizeofUndoLogOffset then
    { r0.1 with chunks := setChunkBufIdx r0.1.chunks i (Int.ofNat r0.2, -1) }
  else
    let r1 := find_or_read_buffer r0.1 chunk.slot_logno (header_block + 1)
    { r1.1 with chunks :=
        setChunkBufIdx r1.1.chunks i (Int.ofNat r0.2, Int.ofNat r1.2) }

/-- `UndoPrepareToInsert`: reserve space (possibly opening new chunks),
pin the buffers of the range, stash `begin`, prepare the forced close of
an earlier chunk if one was flagged, and return the URP of the caller's
first data byte.  The C `Assert(urs->nbuffers == 0)` is modelled as an
error. -/
def UndoPrepareToInsert (slots : SlotTable) (urs : UndoRecordSet)
    (record_size : Nat) (newLogs : List UndoLogSlotState) :
    Except String (SlotTable × UndoRecordSet × Nat) :=
  match undoPrepareLoop record_size newLogs slots urs none with
  | .error e => .error e
  | .ok (slots', urs1, begin_, header_size, cntc) =>
    if urs1.buffers.length ≠ 0 then
      .error "assertion failed: urs->nbuffers == 0"
    else
      let total_size := record_size + header_size
      let block := UndoRecPtrGetBlockNum begin_
      let offset := UndoRecPtrGetPageOffset begin_
      let bufs := pinBuffersLoop (UndoRecPtrGetLogNo begin_) total_size
        total_size block offset
      -- (The second pass taking the content locks has no modelled state.)
      let urs2 := { urs1 with buffers := bufs, begin_ := begin_ }
      let urs3 :=
        match cntc with
        | some i => UndoPrepareToMarkChunkClosed urs2 i
        | none => urs2
      .ok (slots', urs3, UndoRecPtrPlusUsableBytes begin_ header_size)

/-- `UndoDestroy`: release buffers, PANIC if the set is still dirty,
otherwise return every owned log slot, remove the set from the live list
and free it.  The PANIC is modelled as an error result, in which case no
`slotPut` event occurs. -/
def UndoDestroy (live : List UndoRecordSet) (urs : UndoRecordSet) :
    Except String (List UndoRecordSet × List Ev) :=
  -- UndoRelease(urs): unlock and unpin the buffers (no slot is touched).
  if urs.state = URS_STATE_DIRTY then
    .error "PANIC: dirty undo record set not closed before release"
  else
    .ok (live.erase urs, urs.chunks.map (fun c => Ev.slotPut c.slot_logno))

/-! ## Crash-recovery scan (`find_start_of_chunk_on_final_page`) -/

/-- The undo page header fields and raw content used by the startup
scan. -/
structure UndoPage where
  bytes : Nat → Nat
  ud_insertion_point : Nat
  ud_first_chunk : Nat
  ud_continue_chunk : Nat

/-- The aligned 8-byte read of a chunk's `size` field
(`memcpy(&size, page + page_offset, sizeof(size))`); on-disk integers are
little-endian. -/
def readChunkSize (bytes : Nat → Nat) (off : Nat) : Nat :=
  (List.range 8).foldl (fun acc i => acc + bytes (off + i) * 256 ^ i) 0

/-- The forward walk of `find_start_of_chunk_on_final_page` over the
chunks starting on the final page.  The C loop terminates because
`page_offset` strictly grows and the first check errors once it passes
`BLCKSZ - sizeof(size)`; `fuel` is a structural bound, and the caller
passes `BLCKSZ`, which is shown sufficient (`walkChunks_sound`). -/
def walkChunksOnFinalPage (bytes : Nat → Nat) (insertion_point : Nat) :
    Nat → Nat → Except String Nat
  | 0, _ => .error "unreachable: walk fuel exhausted"
  | fuel + 1, page_offset =>
    -- The size must be entirely on this page.
    if BLCKSZ - sizeofUndoLogOffset < page_offset then
      .error "unexpectedly ran out of undo page while reading chunk size"
    -- The chunk cannot spill onto the next page.  (The C code reads the
    -- size once into a local; the read is pure, so it is inlined here.)
    else if BLCKSZ < page_offset + readChunkSize bytes page_offset then
      .error "unexpectedly ran out of undo page while following chunks"
    -- The chunk cannot extend past the insertion point.
    else if insertion_point < page_offset + readChunkSize bytes page_offset
        then
      .error "undo chunk exceeded expected range"
    -- The last chunk hits the insertion point or has size zero.
    else if readChunkSize bytes page_offset = 0 ∨
        page_offset + readChunkSize bytes page_offset = insertion_point then
      .ok page_offset
    else
      walkChunksOnFinalPage bytes insertion_point fuel
        (page_offset + readChunkSize bytes page_offset)

/-- `find_start_of_chunk_on_final_page`: when a chunk starts on this page,
walk forward to the final chunk and return its page-relative URP;
otherwise the answer is the page header's `ud_continue_chunk`. -/
def find_start_of_chunk_on_final_page (page : UndoPage)
    (page_begin_urp : Nat) : Except String Nat :=
  if 0 < page.ud_first_chunk then
    match walkChunksOnFinalPage page.bytes page.ud_insertion_point BLCKSZ
        page.ud_first_chunk with
    | .ok page_offset => .ok (page_begin_urp + page_offset)
    | .error e => .error e
  else
    page.ud_continue_chunk |> .ok

/-- The behaviour the spec describes for the final-page walk, stated as an
inductive relation on the starting page offset and the outcome: walk
forward chunk by chunk adding each size; return the first chunk whose
size is 0 or whose end equals the insertion point; ERROR when a size
field would run past the page, a chunk would extend beyond the page, or a
chunk would extend past the insertion point. -/
inductive FinalChunkWalk (bytes : Nat → Nat) (ip : Nat) :
    Nat → Except String Nat → Prop where
  | size_field_off_page (off : Nat) :
      BLCKSZ - sizeofUndoLogOffset < off →
      FinalChunkWalk bytes ip off
        (.error "unexpectedly ran out of undo page while reading chunk size")
  | chunk_off_page (off : Nat) :
      off ≤ BLCKSZ - sizeofUndoLogOffset →
      BLCKSZ < off + readChunkSize bytes off →
      FinalChunkWalk bytes ip off
        (.error "unexpectedly ran out of undo page while following chunks")
  | chunk_past_insertion (off : Nat) :
      off ≤ BLCKSZ - sizeofUndoLogOffset →
      off + readChunkSize bytes off ≤ BLCKSZ →
      ip < off + readChunkSize bytes off →
      FinalChunkWalk bytes ip off (.error "undo chunk exceeded expected range")
  | found (off : Nat) :
      off ≤ BLCKSZ - sizeofUndoLogOffset →
      off + readChunkSize bytes off ≤ BLCKSZ →
      off + readChunkSize bytes off ≤ ip →
      readChunkSize bytes off = 0 ∨ off + readChunkSize bytes off = ip →
      FinalChunkWalk bytes ip off (.ok off)
  | step (off : Nat) (r : Except String Nat) :
      off ≤ BLCKSZ - sizeofUndoLogOffset →
      off + readChunkSize bytes off ≤ BLCKSZ →
      off + readChunkSize bytes off ≤ ip →
      readChunkSize bytes off ≠ 0 →
      off + readChunkSize bytes off ≠ ip →
      FinalChunkWalk bytes ip (off + readChunkSize bytes off) r →
      FinalChunkWalk bytes ip off r

/-! ## REDO (`UndoReplay`)

Blocks arrive pre-decoded (`DecodedBkpBlock` plus the already-decoded
per-buffer buf-data; `DecodeUndoRecordSetXLogBufData` failure is not
modelled).  XLOG constants (`RM_XACT_ID`, the `XLOG_XACT_*` op masks and
`XLR_INFO_MASK`) live in headers that are not among the sources and are
modelled from the spec with their standard PostgreSQL values. -/

def RM_XACT_ID : Nat := 1
def XLR_INFO_MASK : Nat := 0x0F
def XLOG_XACT_COMMIT : Nat := 0x00
def XLOG_XACT_PREPARE : Nat := 0x10
def XLOG_XACT_ABORT : Nat := 0x20
def XLOG_XACT_COMMIT_PREPARED : Nat := 0x30
def XLOG_XACT_ABORT_PREPARED : Nat := 0x40
def XLOG_XACT_OPMASK : Nat := 0x70

/-- A registered block of the WAL record being replayed, as seen after
`XLogReadBufferForRedoExtended` and buf-data decoding. -/
structure DecodedBlock where
  in_use : Bool
  is_undo_db : Bool          -- rnode.dbNode == UndoDbOid
  logno : Nat                -- rnode.relNode
  blkno : Nat
  will_init : Bool           -- BKPBLOCK_WILL_INIT
  restored : Bool            -- action == BLK_RESTORED
  notfound : Bool            -- action == BLK_NOTFOUND
  bufdata : UndoRecordSetXLogBufData
  deriving Repr, DecidableEq

/-- The WAL record under replay: its resource manager, info byte, and
registered blocks. -/
structure XLogRecordInfo where
  rmid : Nat
  info : Nat
  blocks : List DecodedBlock
  deriving Repr, DecidableEq

/-- The map of page insertion points (`ud_insertion_point`), keyed by
`(logno, blkno)`. -/
def PageMap := Nat → Nat → Nat

/-- Store one page's insertion point. -/
def setPageIP (pages : PageMap) (logno blkno ip : Nat) : PageMap :=
  fun l b => if l = logno ∧ b = blkno then ip else pages l b

/-- Store to a slot's `meta.insert`. -/
def updateSlotInsert (slots : SlotTable) (logno v : Nat) : SlotTable :=
  setSlot slots logno { slots logno with insert := v }

/-- The state threaded through `UndoReplay`'s block loop: shared-memory
slots, page insertion points, the caller's record, the continuation state
(`record_more`, `header_more`, `chunk_size_more` with their offsets and
the cached headers), and the event trace. -/
structure ReplayState where
  slots : SlotTable
  pages : PageMap
  record_data : Bool          -- record_data != NULL
  record_size : Nat
  record_more : Bool
  record_offset : Nat
  chunk_header : UndoRecordSetChunkHeader
  header_more : Bool
  header_offset : Nat
  type_header_size : Nat
  chunk_size_more : Bool
  chunk_size : Nat
  chunk_size_offset : Nat
  trace : List Ev

/-- Bytes consumed by `UndoPageInsertHeader` / `UndoPageSkipHeader` for a
combined chunk header plus `type_header_size` type header. -/
def UndoPageInsertHeaderBytes (page_offset input_offset
    type_header_size : Nat) : Nat :=
  min (BLCKSZ - page_offset)
    ((SizeOfUndoRecordSetChunkHeader + type_header_size) - input_offset)

/-- `UndoLogGetSlot` + physical-range extension at the top of the block
loop (modelled from the spec: `UndoLogAdjustPhysicalRange` extends the
backing to cover the block). -/
def replayExtendSlot (slots : SlotTable) (blk : DecodedBlock) :
    SlotTable :=
  let slot := slots blk.logno
  let past_this_block := (blk.blkno + 1) * BLCKSZ
  if slot.endOffset < past_this_block then
    setSlot slots blk.logno { slot with endOffset := past_this_block }
  else slots

/-- The `URS_XLOG_INSERT` handling: restore the page's insertion point
and the shared insert pointer before redoing (or skipping) the
insertion. -/
def applyInsertPageOffset (s : ReplayState) (blk : DecodedBlock)
    (skip : Bool) : Except String ReplayState :=
  if hasFlag blk.bufdata.flags URS_XLOG_INSERT then
    if ¬s.record_data then
      .error "undo buf data contained an insert page offset, but no record was passed to UndoReplay()"
    else
      let pages :=
        if ¬skip then
          setPageIP s.pages blk.logno blk.blkno
            blk.bufdata.insert_page_offset
        else s.pages
      .ok { s with
        pages := pages,
        slots := updateSlotInsert s.slots blk.logno
          (BLCKSZ * blk.blkno + blk.bufdata.insert_page_offset) }
  else .ok s

/-- Continuation of a chunk-size patch that spilled onto this page; the
write always completes here (`Assert(chunk_size_offset ==
sizeof(chunk_size))`) and processing falls through. -/
def applyChunkSizeCont (s : ReplayState) (blk : DecodedBlock)
    (skip : Bool) : ReplayState :=
  let bytes := UndoPageOverwriteBytes SizeOfUndoPageHeaderData
    s.chunk_size_offset sizeofUndoLogOffset
  if skip then
    { s with chunk_size_offset := s.chunk_size_offset + bytes,
             chunk_size_more := false }
  else
    { s with chunk_size_offset := s.chunk_size_offset + bytes,
             chunk_size_more := false,
             trace := s.trace ++
               [Ev.overwrite blk.logno blk.blkno SizeOfUndoPageHeaderData
                  s.chunk_size_offset bytes s.chunk_size,
                Ev.markDirty blk.blkno] }

/-- Continuation of a header that spilled onto this page.  Returns the
new state and whether the loop must advance to the next block with the
header still incomplete. -/
def applyHeaderCont (s : ReplayState) (blk : DecodedBlock) (skip : Bool) :
    ReplayState × Bool :=
  let bytes := UndoPageInsertHeaderBytes SizeOfUndoPageHeaderData
    s.header_offset s.type_header_size
  let s :=
    if skip then { s with header_offset := s.header_offset + bytes }
    else
      { s with
        header_offset := s.header_offset + bytes,
        pages := setPageIP s.pages blk.logno blk.blkno
          (SizeOfUndoPageHeaderData + bytes),
        trace := s.trace ++
          [Ev.insertHeader blk.blkno SizeOfUndoPageHeaderData
             s.header_offset bytes s.chunk_header,
           Ev.markDirty blk.blkno] }
  -- The shared memory insertion point must be after this fragment.
  let slots := updateSlotInsert s.slots blk.logno
    (BLCKSZ * blk.blkno + s.pages blk.logno blk.blkno)
  let s := { s with slots := slots }
  if s.header_offset <
      SizeOfUndoRecordSetChunkHeader + s.type_header_size then
    (s, true)
  else
    ({ s with header_more := false }, false)

/-- Continuation of a record that spilled onto this page. -/
def applyRecordCont (s : ReplayState) (blk : DecodedBlock) (skip : Bool) :
    ReplayState × Bool :=
  let bytes := UndoPageInsertBytes SizeOfUndoPageHeaderData
    s.record_offset s.record_size
  let s :=
    if skip then { s with record_offset := s.record_offset + bytes }
    else
      { s with
        record_offset := s.record_offset + bytes,
        pages := setPageIP s.pages blk.logno blk.blkno
          (SizeOfUndoPageHeaderData + bytes),
        trace := s.trace ++
          [Ev.insertRecord blk.blkno SizeOfUndoPageHeaderData
             s.record_offset bytes,
           Ev.markDirty blk.blkno] }
  let slots := updateSlotInsert s.slots blk.logno
    (BLCKSZ * blk.blkno + s.pages blk.logno blk.blkno)
  let s := { s with slots := slots }
  if s.record_offset < s.record_size then (s, true)
  else ({ s with record_more := false, record_data := false }, false)

/-- `URS_XLOG_CREATE`: synthesize the first chunk's header (`size = 0`,
invalid `previous_chunk`) followed by the type header captured in the
buf-data. -/
def applyCreate (s : ReplayState) (blk : DecodedBlock) (skip : Bool) :
    ReplayState × Bool :=
  if hasFlag blk.bufdata.flags URS_XLOG_CREATE then
    let s :=
      if skip then
        let ho := s.header_offset +
          UndoPageInsertHeaderBytes SizeOfUndoPageHeaderData
            s.header_offset s.type_header_size
        { s with header_offset := ho }
      else
        let ip := s.pages blk.logno blk.blkno
        let bytes := UndoPageInsertHeaderBytes ip 0
          blk.bufdata.type_header_size
        let ch : UndoRecordSetChunkHeader :=
          { size := 0, previous_chunk := InvalidUndoRecPtr,
            type := blk.bufdata.urs_type }
        { s with
          chunk_header := ch,
          type_header_size := blk.bufdata.type_header_size,
          header_offset := bytes,
          pages := setPageIP s.pages blk.logno blk.blkno (ip + bytes),
          trace := s.trace ++
            [Ev.insertHeader blk.blkno ip 0 bytes ch,
             Ev.markDirty blk.blkno] }
    if s.header_offset <
        SizeOfUndoRecordSetChunkHeader + s.type_header_size then
      ({ s with header_more := true }, true)
    else (s, false)
  else (s, false)

/-- `URS_XLOG_ADD_CHUNK`: synthesize a later chunk's header
(`previous_chunk` from the buf-data, no type header). -/
def applyAddChunk (s : ReplayState) (blk : DecodedBlock) (skip : Bool) :
    ReplayState × Bool :=
  if hasFlag blk.bufdata.flags URS_XLOG_ADD_CHUNK then
    let s :=
      if skip then
        let ho := s.header_offset +
          UndoPageInsertHeaderBytes SizeOfUndoPageHeaderData
            s.header_offset s.type_header_size
        { s with header_offset := ho }
      else
        let ip := s.pages blk.logno blk.blkno
        let bytes := UndoPageInsertHeaderBytes ip 0 0
        let ch : UndoRecordSetChunkHeader :=
          { size := 0,
            previous_chunk := blk.bufdata.previous_chunk_header_location,
            type := blk.bufdata.urs_type }
        { s with
          chunk_header := ch,
          type_header_size := 0,
          header_offset := bytes,
          pages := setPageIP s.pages blk.logno blk.blkno (ip + bytes),
          trace := s.trace ++
            [Ev.insertHeader blk.blkno ip 0 bytes ch,
             Ev.markDirty blk.blkno] }
    if s.header_offset < SizeOfUndoRecordSetChunkHeader then
      ({ s with header_more := true }, true)
    else (s, false)
  else (s, false)

/-- Apply the caller's record bytes at the page's insertion point. -/
def applyRecordData (s : ReplayState) (blk : DecodedBlock) (skip : Bool) :
    ReplayState × Bool :=
  if s.record_data then
    let s :=
      if skip then
        let ro := s.record_offset +
          UndoPageInsertBytes SizeOfUndoPageHeaderData s.record_offset
            s.record_size
        { s with record_offset := ro }
      else
        let ip := s.pages blk.logno blk.blkno
        let bytes := UndoPageInsertBytes ip 0 s.record_size
        { s with
          record_offset := bytes,
          pages := setPageIP s.pages blk.logno blk.blkno (ip + bytes),
          trace := s.trace ++
            [Ev.insertRecord blk.blkno ip 0 bytes,
             Ev.markDirty blk.blkno] }
    let slots := updateSlotInsert s.slots blk.logno
      (BLCKSZ * blk.blkno + s.pages blk.logno blk.blkno)
    let s := { s with slots := slots }
    if s.record_offset < s.record_size then
      ({ s with record_more := true }, true)
    else ({ s with record_data := false }, false)
  else (s, false)

/-- The commit/prepare derivation for a transaction-set close in REDO:
the record must come from `RM_XACT_ID` with one of the standard
transaction op masks, else ERROR. -/
def xactCloseFlags (rmid info : Nat) : Except String (Bool × Bool) :=
  if rmid ≠ RM_XACT_ID then
    .error "transaction undo closed by unexpected rmgr"
  else
    let op := (info &&& (255 - XLR_INFO_MASK)) &&& XLOG_XACT_OPMASK
    if op = XLOG_XACT_COMMIT ∨ op = XLOG_XACT_COMMIT_PREPARED then
      .ok (true, false)
    else if op = XLOG_XACT_ABORT ∨ op = XLOG_XACT_ABORT_PREPARED then
      .ok (false, false)
    else if op = XLOG_XACT_PREPARE then
      .ok (false, true)
    else
      .error "transaction undo closed by unexpected record"

/-- `URS_XLOG_CLOSE_CHUNK`: patch the chunk's size, and when the buf-data
also carries `CLOSE` for a `URST_TRANSACTION` set, deliver the xact-undo
callback — before any continuation of the patch onto the next page (the
source marks this ordering with an `XXX IS it OK` comment). -/
def applyCloseChunk (rec : XLogRecordInfo) (s : ReplayState)
    (blk : DecodedBlock) (skip : Bool) :
    Except String (ReplayState × Bool) :=
  if hasFlag blk.bufdata.flags URS_XLOG_CLOSE_CHUNK then
    let s := { s with chunk_size := blk.bufdata.chunk_size }
    let s :=
      if skip then
        let cso := UndoPageOverwriteBytes SizeOfUndoPageHeaderData
          s.chunk_size_offset sizeofUndoLogOffset
        { s with chunk_size_offset := cso }
      else
        { s with
          chunk_size_offset :=
            UndoPageOverwriteBytes blk.bufdata.chunk_size_page_offset 0
              sizeofUndoLogOffset,
          trace := s.trace ++
            [Ev.overwrite blk.logno blk.blkno
               blk.bufdata.chunk_size_page_offset 0
               (UndoPageOverwriteBytes blk.bufdata.chunk_size_page_offset
                 0 sizeofUndoLogOffset)
               blk.bufdata.chunk_size] }
    -- Let xactundo.c know if a URST_TRANSACTION set was closed.
    let cb : Except String ReplayState :=
      if blk.bufdata.urs_type = URST_TRANSACTION ∧
          hasFlag blk.bufdata.flags URS_XLOG_CLOSE then
        match xactCloseFlags rec.rmid rec.info with
        | .error e => .error e
        | .ok (isCommit, isPrepare) =>
          let begin_ :=
            if hasFlag blk.bufdata.flags URS_XLOG_CLOSE_MULTI_CHUNK then
              blk.bufdata.first_chunk_header_location
            else
              MakeUndoRecPtr blk.logno
                (blk.blkno * BLCKSZ + blk.bufdata.chunk_size_page_offset)
          let endUrp := MakeUndoRecPtr blk.logno
            (blk.blkno * BLCKSZ + blk.bufdata.chunk_size_page_offset +
              blk.bufdata.chunk_size)
          .ok { s with trace := s.trace ++
            [Ev.xactCallback blk.bufdata.type_header begin_ endUrp
               isCommit isPrepare] }
      else .ok s
    match cb with
    | .error e => .error e
    | .ok s =>
      if s.chunk_size_offset < sizeofUndoLogOffset then
        .ok ({ s with chunk_size_more := true }, true)
      else .ok (s, false)
  else .ok (s, false)

/-- The flag-driven tail of a block's processing (`CREATE`, `ADD_CHUNK`,
record data, `CLOSE_CHUNK`), reached when no continuation forced an
advance to the next block. -/
def replayBlockTail (rec : XLogRecordInfo) (s : ReplayState)
    (blk : DecodedBlock) (skip : Bool) : Except String ReplayState :=
  let r := applyCreate s blk skip
  if r.2 then .ok r.1
  else
    let r := applyAddChunk r.1 blk skip
    if r.2 then .ok r.1
    else
      let r := applyRecordData r.1 blk skip
      if r.2 then .ok r.1
      else
        match applyCloseChunk rec r.1 blk skip with
        | .error e => .error e
        | .ok (s, _) => .ok s

/-- Process one registered block of the record: the body of `UndoReplay`'s
block loop.  A `true` second component of an internal stage means the C
`continue`, skipping the rest of the block's processing. -/
def replayBlock (rec : XLogRecordInfo) (s : ReplayState)
    (blk : DecodedBlock) : Except String ReplayState :=
  if ¬(blk.in_use && blk.is_undo_db) then .ok s
  else
    let s := { s with slots := replayExtendSlot s.slots blk }
    let skip := blk.restored || blk.notfound
    match applyInsertPageOffset s blk skip with
    | .error e => .error e
    | .ok s =>
      -- Drain a pending continuation: chunk size, else header, else
      -- record; only the chunk-size one falls through.
      if s.chunk_size_more then
        replayBlockTail rec (applyChunkSizeCont s blk skip) blk skip
      else if s.header_more then
        let r := applyHeaderCont s blk skip
        if r.2 then .ok r.1 else replayBlockTail rec r.1 blk skip
      else if s.record_more then
        let r := applyRecordCont s blk skip
        if r.2 then .ok r.1 else replayBlockTail rec r.1 blk skip
      else
        replayBlockTail rec s blk skip

/-- The block loop of `UndoReplay`. -/
def replayBlocks (rec : XLogRecordInfo) :
    List DecodedBlock → ReplayState → Except String ReplayState
  | [], s => .ok s
  | blk :: rest, s =>
    match replayBlock rec s blk with
    | .error e => .error e
    | .ok s' => replayBlocks rec rest s'

/-- The initial replay state for a WAL record. -/
def initReplayState (slots : SlotTable) (pages : PageMap)
    (record_data : Bool) (record_size : Nat) : ReplayState :=
  { slots := slots, pages := pages,
    record_data := record_data, record_size := record_size,
    record_more := false, record_offset := 0,
    chunk_header := default, header_more := false, header_offset := 0,
    type_header_size := 0, chunk_size_more := false, chunk_size := 0,
    chunk_size_offset := 0, trace := [] }

/-- `UndoReplay`: process every registered block, then ERROR if header or
record data was destined for a buffer that was never registered. -/
def UndoReplay (rec : XLogRecordInfo) (record_data : Bool)
    (record_size : Nat) (slots : SlotTable) (pages : PageMap) :
    Except String ReplayState :=
  match replayBlocks rec rec.blocks
      (initReplayState slots pages record_data record_size) with
  | .error e => .error e
  | .ok s =>
    if s.header_more || s.record_more then
      .error "undo data didn't fit on registered buffers"
    else .ok s

/-- Is an event an `UndoPageOverwrite` call? -/
def isOverwrite : Ev → Bool
  | .overwrite _ _ _ _ _ _ => true
  | _ => false

/-- The overwrite calls performed in a trace, in order. -/
def overwriteEvents (t : List Ev) : List Ev := t.filter isOverwrite

/-! ## Sample values used by the witnesses -/

/-- A slot table where each log's insert pointer sits at offset 5000. -/
def sampleSlots : SlotTable := fun n =>
  { logno := n, insert := 5000, size := UndoLogMaxSize,
    endOffset := 2 * BLCKSZ, force_truncate := false }

/-- A slot table where log 7's insert pointer sits just past a page
boundary, so that the chunk at offset `BLCKSZ - 4` straddles. -/
def sampleSlotsStraddle : SlotTable := fun n =>
  { logno := n, insert := BLCKSZ + 100, size := UndoLogMaxSize,
    endOffset := 2 * BLCKSZ, force_truncate := false }

/-- A chunk whose header starts at offset 4000 of log 7. -/
def sampleChunk : UndoRecordSetChunk :=
  { slot_logno := 7, chunk_header_written := true,
    chunk_header_offset := 4000, chunk_header_buffer_index := (0, -1) }

/-- A chunk whose header's 8-byte size field straddles a page boundary. -/
def sampleChunkStraddle : UndoRecordSetChunk :=
  { slot_logno := 7, chunk_header_written := true,
    chunk_header_offset := BLCKSZ - 4, chunk_header_buffer_index := (0, 1) }

/-- A buffer with no staged buf-data. -/
def sampleBuffer : UndoBuffer :=
  { logno := 7, block := 0, is_new := false, needs_init := false,
    bufdata := emptyBufData }

/-- A dirty single-chunk URS on log 7. -/
def sampleURSDirty : UndoRecordSet :=
  { type := URST_FOO, needsWAL := true, chunks := [sampleChunk],
    buffers := [sampleBuffer], need_chunk_header := false,
    type_header := [1, 2, 3, 4], type_header_size := 4,
    need_type_header := false, begin_ := 0, slot := some 7,
    chunk_start := MakeUndoRecPtr 7 4000, recent_end := 2 * BLCKSZ,
    state := URS_STATE_DIRTY, nestingLevel := 1 }

/-- A dirty single-chunk URS whose chunk header straddles pages. -/
def sampleURSStraddle : UndoRecordSet :=
  { sampleURSDirty with
    chunks := [sampleChunkStraddle],
    buffers := [sampleBuffer, { sampleBuffer with block := 1 }] }

/-- A URS ready for its first insert: `UndoPrepareToInsert` has created
the first chunk at offset 5000 of log 7, pinned one buffer and stashed
`begin`. -/
def sampleURSPrepared : UndoRecordSet :=
  { type := URST_FOO, needsWAL := true,
    chunks := [{ slot_logno := 7, chunk_header_written := false,
                 chunk_header_offset := 5000,
                 chunk_header_buffer_index := (-1, -1) }],
    buffers := [sampleBuffer],
    need_chunk_header := true,
    type_header := [1, 2, 3, 4], type_header_size := 4,
    need_type_header := true,
    begin_ := 5000, slot := some 7,
    chunk_start := MakeUndoRecPtr 7 5000, recent_end := 2 * BLCKSZ,
    state := URS_STATE_CLEAN, nestingLevel := 1 }

/-- The slot table after `UndoInsert sampleSlots sampleURSPrepared 16`:
log 7's insert pointer has advanced by usable(24 + 4 + 16) to 5044. -/
def slotsAfterInsert : SlotTable :=
  setSlot sampleSlots 7
    { logno := 7, insert := 5044, size := UndoLogMaxSize,
      endOffset := 2 * BLCKSZ, force_truncate := false }

/-- The buf-data staged on the sample buffer by the sample insert:
`URS_XLOG_INSERT | URS_XLOG_CREATE` with the insert page offset and the
type header. -/
def bufdataAfterInsert : UndoRecordSetXLogBufData :=
  { flags := 3, insert_page_offset := 5000, chunk_header_location := 0,
    previous_chunk_header_location := 0, urs_type := 2,
    type_header := [1, 2, 3, 4], type_header_size := 4,
    chunk_size_page_offset := 0, chunk_size := 0,
    first_chunk_header_location := 0 }

/-- The URS after `UndoInsert sampleSlots sampleURSPrepared 16`. -/
def ursAfterInsert : UndoRecordSet :=
  { sampleURSPrepared with
    chunks := [{ slot_logno := 7, chunk_header_written := true,
                 chunk_header_offset := 5000,
                 chunk_header_buffer_index := (-1, -1) }],
    buffers := [{ logno := 7, block := 0, is_new := false,
                  needs_init := false, bufdata := bufdataAfterInsert }],
    need_chunk_header := false, need_type_header := false,
    state := URS_STATE_DIRTY }

/-- The event trace of `UndoInsert sampleSlots sampleURSPrepared 16`. -/
def insertTrace : List Ev :=
  [Ev.insertHeader 0 5000 0 28 { size := 0, previous_chunk := 0, type := 2 },
   Ev.markDirty 0,
   Ev.insertRecord 0 5028 0 16,
   Ev.markDirty 0,
   Ev.lockAcquire 7 LockMode.LW_EXCLUSIVE,
   Ev.setInsert 7 5044,
   Ev.lockRelease 7]

/-- The URS produced by `UndoPrepareToInsert sampleSlots
{ sampleURSPrepared with buffers := [] } 16 []`: one buffer pinned for
the 44-byte range at page offset 5000, `begin` stashed. -/
def ursAfterPrepare : UndoRecordSet :=
  { sampleURSPrepared with
    buffers := [{ logno := 7, block := 0, is_new := false,
                  needs_init := false, bufdata := emptyBufData }],
    begin_ := MakeUndoRecPtr 7 5000 }

/-- A final page holding a closed 40-byte chunk at offset 24 followed by
an open (size 0) chunk at offset 64; the insertion point is 100. -/
def samplePage : UndoPage :=
  { bytes := fun i => if i = 24 then 40 else 0,
    ud_insertion_point := 100,
    ud_first_chunk := 24,
    ud_continue_chunk := 0 }

/-- A registered block carrying a `CLOSE_CHUNK` whose 8-byte size patch
starts four bytes before the page end, so it straddles onto the next
page. -/
def straddleCloseBlock : DecodedBlock :=
  { in_use := true, is_undo_db := true, logno := 3, blkno := 5,
    will_init := false, restored := false, notfound := false,
    bufdata := { emptyBufData with
      flags := URS_XLOG_CLOSE_CHUNK,
      chunk_size_page_offset := BLCKSZ - 4, chunk_size := 104 } }

/-- A WAL record whose only registered block is the straddling
`CLOSE_CHUNK`: the spilled half of the size patch has no following block
to land on. -/
def straddleCloseRec : XLogRecordInfo :=
  { rmid := RM_XACT_ID, info := 0, blocks := [straddleCloseBlock] }

/-- The straddling `CLOSE_CHUNK` also carrying `CLOSE` for a
`URST_TRANSACTION` set. -/
def xactCloseBlock0 : DecodedBlock :=
  { straddleCloseBlock with
    bufdata := { emptyBufData with
      flags := URS_XLOG_CLOSE_CHUNK ||| URS_XLOG_CLOSE,
      urs_type := URST_TRANSACTION, type_header := [9, 9],
      type_header_size := 2,
      chunk_size_page_offset := BLCKSZ - 4, chunk_size := 104 } }

/-- The following block, which receives the spilled half of the size
patch. -/
def xactCloseBlock1 : DecodedBlock :=
  { straddleCloseBlock with blkno := 6, bufdata := emptyBufData }

/-- A commit record closing a transaction URS with a size patch that
straddles two pages. -/
def xactCloseRec : XLogRecordInfo :=
  { rmid := RM_XACT_ID, info := XLOG_XACT_COMMIT,
    blocks := [xactCloseBlock0, xactCloseBlock1] }

/-- A transaction `CLOSE_CHUNK`+`CLOSE` block whose 8-byte size patch
fits entirely on its page. -/
def c8CloseBlock : DecodedBlock :=
  { in_use := true, is_undo_db := true, logno := 3, blkno := 5,
    will_init := false, restored := false, notfound := false,
    bufdata := { emptyBufData with
      flags := URS_XLOG_CLOSE_CHUNK ||| URS_XLOG_CLOSE,
      urs_type := URST_TRANSACTION, type_header := [9, 9],
      type_header_size := 2,
      chunk_size_page_offset := 100, chunk_size := 104 } }

/-- A commit record whose only registered block closes a transaction
URS with a non-straddling size patch. -/
def c8CloseRec : XLogRecordInfo :=
  { rmid := RM_XACT_ID, info := XLOG_XACT_COMMIT,
    blocks := [c8CloseBlock] }

/-- A replay state with no pending continuations. -/
def c8InitState : ReplayState :=
  initReplayState sampleSlots (fun _ _ => 0) false 0

/-- A clean URS that has written nothing. -/
def sampleURSClean : UndoRecordSet :=
  { sampleURSDirty with
    chunks := [], buffers := [], slot := none,
    state := URS_STATE_CLEAN, need_chunk_header := false,
    need_type_header := true }

/-! # Theorems -/

/-- Projection of `UndoMarkPageClosed`: bytes written on this page. -/
theorem UndoMarkPageClosed_fst (urs : UndoRecordSet)
    (chunk : UndoRecordSetChunk) (chbidx p d s : Nat) :
    (UndoMarkPageClosed urs chunk chbidx p d s).1 =
      UndoPageOverwriteBytes p d sizeofUndoLogOffset := rfl

/-- Projection of `UndoMarkPageClosed`: the events performed. -/
theorem UndoMarkPageClosed_snd (urs : UndoRecordSet)
    (chunk : UndoRecordSetChunk) (chbidx p d s : Nat) :
    (UndoMarkPageClosed urs chunk chbidx p d s).2 =
      [Ev.overwrite chunk.slot_logno
          (chunk.chunk_header_offset / BLCKSZ + chbidx) p d
          (UndoPageOverwriteBytes p d sizeofUndoLogOffset) s,
       Ev.markDirty (if chbidx = 0 then chunk.chunk_header_buffer_index.1
          else chunk.chunk_header_buffer_index.2).toNat] := rfl

/-- The `while (data_offset < sizeof(size))` loop performs one overwrite
call when the 8-byte field fits on the header's page, and exactly two
otherwise, the second starting at `SizeOfUndoPageHeaderData`. -/
theorem markChunkClosedLoop_spec (urs : UndoRecordSet)
    (chunk : UndoRecordSetChunk) (p size : Nat) (hp : p < BLCKSZ) :
    markChunkClosedLoop urs chunk 0 p 0 size =
      if sizeofUndoLogOffset ≤ BLCKSZ - p then
        (UndoMarkPageClosed urs chunk 0 p 0 size).2
      else
        (UndoMarkPageClosed urs chunk 0 p 0 size).2 ++
          (UndoMarkPageClosed urs chunk 1 SizeOfUndoPageHeaderData
            (BLCKSZ - p) size).2 := by
  by_cases hfit : sizeofUndoLogOffset ≤ BLCKSZ - p
  · rw [if_pos hfit]
    rw [markChunkClosedLoop]
    rw [dif_pos (by decide : (0:Nat) < sizeofUndoLogOffset), dif_pos hp]
    have hb : (UndoMarkPageClosed urs chunk 0 p 0 size).1 =
        sizeofUndoLogOffset := by
      rw [UndoMarkPageClosed_fst]
      simp only [UndoPageOverwriteBytes, Nat.sub_zero]
      omega
    rw [hb]
    rw [markChunkClosedLoop]
    rw [dif_neg (by omega : ¬ 0 + sizeofUndoLogOffset < sizeofUndoLogOffset)]
    simp
  · rw [if_neg hfit]
    rw [markChunkClosedLoop]
    rw [dif_pos (by decide : (0:Nat) < sizeofUndoLogOffset), dif_pos hp]
    have hb1 : (UndoMarkPageClosed urs chunk 0 p 0 size).1 = BLCKSZ - p := by
      rw [UndoMarkPageClosed_fst]
      simp only [UndoPageOverwriteBytes, Nat.sub_zero]
      omega
    rw [hb1]
    rw [markChunkClosedLoop]
    rw [dif_pos (by omega : 0 + (BLCKSZ - p) < sizeofUndoLogOffset),
      dif_pos (by decide : SizeOfUndoPageHeaderData < BLCKSZ)]
    have hb2 : (UndoMarkPageClosed urs chunk 1 SizeOfUndoPageHeaderData
        (0 + (BLCKSZ - p)) size).1 =
        sizeofUndoLogOffset - (BLCKSZ - p) := by
      rw [UndoMarkPageClosed_fst]
      simp only [UndoPageOverwriteBytes, SizeOfUndoPageHeaderData, BLCKSZ,
        sizeofUndoLogOffset] at *
      omega
    rw [hb2]
    rw [markChunkClosedLoop]
    rw [dif_neg (by omega :
      ¬ 0 + (BLCKSZ - p) + (sizeofUndoLogOffset - (BLCKSZ - p)) <
        sizeofUndoLogOffset)]
    simp

/-- **C1.** For every URS in state DIRTY, `UndoMarkClosed` computes the
final chunk's size as `slot.insert − header_offset` and overwrites the
8-byte `size` field of that chunk's header, looping until
`data_offset = sizeof(size)`, with every iteration after the first
starting at page offset `SizeOfUndoPageHeaderData`; a size patch that
straddles two pages performs exactly two overwrite calls, and afterwards
the set's state is CLOSED.  The overwrite-call trace is characterised
exactly: one call when the field fits on the header's page, two otherwise,
with the stated offsets, byte counts and value. -/
theorem undoMarkClosed_dirty_spec
    (slots : SlotTable) (urs : UndoRecordSet)
    (hd : urs.state = URS_STATE_DIRTY)
    (hle : (urs.chunks.getLastD default).chunk_header_offset ≤
        (slots (urs.chunks.getLastD default).slot_logno).insert) :
    (UndoMarkClosed slots urs).1.state = URS_STATE_CLOSED ∧
    overwriteEvents (UndoMarkClosed slots urs).2 =
      (let chunk := urs.chunks.getLastD default
       let header := chunk.chunk_header_offset
       let size := (slots chunk.slot_logno).insert - header
       let p := header % BLCKSZ
       let blk := header / BLCKSZ
       if sizeofUndoLogOffset ≤ BLCKSZ - p then
         [Ev.overwrite chunk.slot_logno blk p 0 sizeofUndoLogOffset size]
       else
         [Ev.overwrite chunk.slot_logno blk p 0 (BLCKSZ - p) size,
          Ev.overwrite chunk.slot_logno (blk + 1) SizeOfUndoPageHeaderData
            (BLCKSZ - p) (sizeofUndoLogOffset - (BLCKSZ - p)) size]) := by
  have hBpos : 0 < BLCKSZ := by decide
  have hp : (urs.chunks.getLastD default).chunk_header_offset % BLCKSZ <
      BLCKSZ := Nat.mod_lt _ hBpos
  constructor
  · simp [UndoMarkClosed, hd]
  · simp only [UndoMarkClosed, hd, if_pos, UndoMarkChunkClosed]
    rw [markChunkClosedLoop_spec _ _ _ _ hp]
    by_cases hfit : sizeofUndoLogOffset ≤
        BLCKSZ - (urs.chunks.getLastD default).chunk_header_offset % BLCKSZ
    · rw [if_pos hfit, if_pos hfit, UndoMarkPageClosed_snd]
      have hbytes : UndoPageOverwriteBytes
          ((urs.chunks.getLastD default).chunk_header_offset % BLCKSZ) 0
          sizeofUndoLogOffset = sizeofUndoLogOffset := by
        simp only [UndoPageOverwriteBytes, Nat.sub_zero]
        omega
      rw [hbytes]
      simp [overwriteEvents, isOverwrite]
    · rw [if_neg hfit, if_neg hfit, UndoMarkPageClosed_snd,
        UndoMarkPageClosed_snd]
      have hb1 : UndoPageOverwriteBytes
          ((urs.chunks.getLastD default).chunk_header_offset % BLCKSZ) 0
          sizeofUndoLogOffset =
          BLCKSZ - (urs.chunks.getLastD default).chunk_header_offset %
            BLCKSZ := by
        simp only [UndoPageOverwriteBytes, Nat.sub_zero]
        omega
      have hb2 : UndoPageOverwriteBytes SizeOfUndoPageHeaderData
          (BLCKSZ - (urs.chunks.getLastD default).chunk_header_offset %
            BLCKSZ) sizeofUndoLogOffset =
          sizeofUndoLogOffset -
            (BLCKSZ - (urs.chunks.getLastD default).chunk_header_offset %
              BLCKSZ) := by
        simp only [UndoPageOverwriteBytes, SizeOfUndoPageHeaderData, BLCKSZ,
          sizeofUndoLogOffset] at *
        omega
      rw [hb1, hb2]
      simp [overwriteEvents, isOverwrite]

/-- Witness for C1 on the straddling sample: the URS closes and exactly
two overwrite calls are made, the second starting at
`SizeOfUndoPageHeaderData`. -/
theorem undoMarkClosed_dirty_spec_witness :
    sampleURSStraddle.state = URS_STATE_DIRTY ∧
    ((UndoMarkClosed sampleSlotsStraddle sampleURSStraddle).1.state =
        URS_STATE_CLOSED ∧
      overwriteEvents (UndoMarkClosed sampleSlotsStraddle
          sampleURSStraddle).2 =
        [Ev.overwrite 7 0 (BLCKSZ - 4) 0 4 104,
         Ev.overwrite 7 1 SizeOfUndoPageHeaderData 4 4 104]) := by
  refine ⟨by decide, ?_⟩
  have h := undoMarkClosed_dirty_spec sampleSlotsStraddle sampleURSStraddle
    (by decide) (by decide)
  refine ⟨h.1, ?_⟩
  rw [h.2]
  decide

/-- A successful run of the header-writing loop begins by writing the
given chunk header at the current position. -/
theorem undoInsertHeaderLoop_ok_cons
    (needsWAL : Bool) (urs_type : Nat) (need_type_header : Bool)
    (type_header : List Nat) (type_header_size : Nat)
    (ch : UndoRecordSetChunkHeader) (chunk_start all_header_size : Nat)
    (fuel : Nat) (st : InsLoopState) (io : Nat) (st' : InsLoopState)
    (evs : List Ev)
    (h : undoInsertHeaderLoop needsWAL urs_type need_type_header
      type_header type_header_size ch chunk_start all_header_size fuel st
      io = .ok (st', evs)) :
    ∃ bytes rest,
      evs = Ev.insertHeader st.buffer_index st.page_offset io bytes ch ::
        rest := by
  cases fuel with
  | zero => cases h
  | succ fuel =>
    rw [undoInsertHeaderLoop] at h
    split at h
    · simp only [] at h
      split at h
      · cases h
        exact ⟨_, _, rfl⟩
      · split at h
        · cases h
          exact ⟨_, _, rfl⟩
        · cases h
    · cases h

/-- Extract a middle segment of a four-part concatenation. -/
theorem exists_append_mid {α : Type} (A B C D : List α) :
    ∃ pre post, A ++ B ++ C ++ D = pre ++ (C ++ post) :=
  ⟨A ++ B, D, by simp⟩

/-- A four-part concatenation whose first part is a cons starts with its
head. -/
theorem exists_cons_head {α : Type} (x : α) (r S T U : List α) :
    ∃ rest, (x :: r) ++ S ++ T ++ U = x :: rest :=
  ⟨r ++ S ++ T ++ U, rfl⟩

/-- Index arithmetic for the previous chunk: in `cs ++ [a, b]`, the chunk
before the last is `a`. -/
theorem getD_append_pair {α : Type} [Inhabited α] (cs : List α) (a b d : α) :
    (cs ++ [a, b]).getD cs.length d = a := by
  induction cs with
  | nil => rfl
  | cons x xs ih => simpa [List.getD] using ih

/-- **C2.** After a successful `UndoInsert` of a record of `record_size`
bytes following a matching `UndoPrepareToInsert`, the shared `slot.insert`
equals its previous value advanced by exactly the usable-byte count of the
headers written plus `record_size`, i.e.
`UndoLogOffsetPlusUsableBytes(old_insert, all_header_size + record_size)`,
and that update is performed between acquiring the slot's `meta_lock` in
exclusive mode and releasing it. -/
theorem undoInsert_advances_insert
    (slots : SlotTable) (urs : UndoRecordSet) (record_size logno : Nat)
    (slots' : SlotTable) (urs' : UndoRecordSet) (tr : List Ev)
    (hslot : urs.slot = some logno)
    (hok : UndoInsert slots urs record_size = .ok (slots', urs', tr)) :
    (slots' logno).insert =
      UndoLogOffsetPlusUsableBytes (slots logno).insert
        (((if urs.need_type_header then urs.type_header_size else 0) +
            (if urs.need_chunk_header then SizeOfUndoRecordSetChunkHeader
              else 0)) + record_size) ∧
    ∃ pre post, tr =
      pre ++ (insertLockEvents slots urs logno record_size ++ post) := by
  unfold UndoInsert at hok
  rw [hslot] at hok
  simp only [] at hok
  split at hok
  · cases hok
  · split at hok
    · cases hok
    · split at hok
      · cases hok
      · split at hok
        · cases hok
        · cases hok
          constructor
          · simp [setSlot, undoInsertNewInsert]
          · exact exists_append_mid _ _ _ _

/-- Witness for C2 on the sample prepared URS: the insert succeeds, log
7's insert pointer advances from 5000 to `usable+44` = 5044, and the
update happens inside the exclusive meta-lock window. -/
theorem undoInsert_advances_insert_witness :
    sampleURSPrepared.slot = some 7 ∧
    UndoInsert sampleSlots sampleURSPrepared 16 =
      .ok (slotsAfterInsert, ursAfterInsert, insertTrace) ∧
    ((slotsAfterInsert 7).insert =
        UndoLogOffsetPlusUsableBytes (sampleSlots 7).insert ((4 + 24) + 16) ∧
      ∃ pre post, insertTrace =
        pre ++ (insertLockEvents sampleSlots sampleURSPrepared 7 16 ++
          post)) :=
  ⟨rfl, by rfl,
    undoInsert_advances_insert sampleSlots sampleURSPrepared 16 7
      slotsAfterInsert ursAfterInsert insertTrace rfl (by rfl)⟩

/-- **C3.** Whenever `UndoInsert` writes a chunk header (i.e.
`need_chunk_header` is set and the insert succeeds), the event trace
starts with the write of `insertChunkHeader urs`, which is stamped with
`size = 0` (chunk still open) and the set's type; its `previous_chunk` is
`InvalidUndoRecPtr` when the chunk is the set's first chunk, and for any
two consecutive chunks `c_i, c_last` at the end of the set's chunk list it
is `MakeUndoRecPtr(c_i.slot.logno, c_i.chunk_header_offset)` — it points
at `c_i`'s header. -/
theorem undoInsert_chunk_header_spec
    (slots : SlotTable) (urs : UndoRecordSet) (record_size : Nat)
    (slots' : SlotTable) (urs' : UndoRecordSet) (tr : List Ev)
    (hch : urs.need_chunk_header = true)
    (hok : UndoInsert slots urs record_size = .ok (slots', urs', tr)) :
    (∃ bytes rest, tr =
      Ev.insertHeader 0 (urs.begin_ % BLCKSZ) 0 bytes
        (insertChunkHeader urs) :: rest) ∧
    (insertChunkHeader urs).size = 0 ∧
    (insertChunkHeader urs).type = urs.type ∧
    (urs.chunks.length ≤ 1 →
      (insertChunkHeader urs).previous_chunk = InvalidUndoRecPtr) ∧
    (∀ cs ci clast, urs.chunks = cs ++ [ci, clast] →
      (insertChunkHeader urs).previous_chunk =
        MakeUndoRecPtr ci.slot_logno ci.chunk_header_offset) := by
  refine ⟨?_, rfl, rfl, ?_, ?_⟩
  · unfold UndoInsert at hok
    cases hs : urs.slot with
    | none => rw [hs] at hok; exact Except.noConfusion hok
    | some logno =>
      rw [hs] at hok
      simp only [hch, reduceIte] at hok
      split at hok
      · cases hok
      · split at hok
        · cases hok
        · split at hok
          · cases hok
          · rename_i st1 headerEvs chh heq
            split at heq
            · rename_i st evs hloop
              obtain ⟨bytes, rest, hevs⟩ :=
                undoInsertHeaderLoop_ok_cons _ _ _ _ _ _ _ _ _ _ _ _ _
                  hloop
              cases heq
              split at hok
              · cases hok
              · cases hok
                refine ⟨bytes, ?_⟩
                rw [hevs]
                exact exists_cons_head _ _ _ _ _
            · cases heq
  · intro hlen
    simp [insertChunkHeader, Nat.lt_iff_add_one_le]
    omega
  · intro cs ci clast hcs
    simp only [insertChunkHeader, hcs]
    have hb : (cs ++ [ci, clast]).length = cs.length + 2 := by simp
    rw [hb]
    rw [if_pos (by omega)]
    have h2 : cs.length + 2 - 2 = cs.length := by omega
    rw [h2, getD_append_pair]

/-- Witness for C3 on the sample prepared URS: the trace starts with the
chunk-header write, whose header has `size = 0` and an invalid
`previous_chunk` (it is the set's first chunk). -/
theorem undoInsert_chunk_header_spec_witness :
    sampleURSPrepared.need_chunk_header = true ∧
    ((∃ bytes rest, insertTrace =
        Ev.insertHeader 0 (sampleURSPrepared.begin_ % BLCKSZ) 0 bytes
          (insertChunkHeader sampleURSPrepared) :: rest) ∧
      (insertChunkHeader sampleURSPrepared).size = 0 ∧
      (insertChunkHeader sampleURSPrepared).type = sampleURSPrepared.type ∧
      (sampleURSPrepared.chunks.length ≤ 1 →
        (insertChunkHeader sampleURSPrepared).previous_chunk =
          InvalidUndoRecPtr) ∧
      (∀ cs ci clast, sampleURSPrepared.chunks = cs ++ [ci, clast] →
        (insertChunkHeader sampleURSPrepared).previous_chunk =
          MakeUndoRecPtr ci.slot_logno ci.chunk_header_offset)) :=
  ⟨rfl, undoInsert_chunk_header_spec sampleSlots sampleURSPrepared 16
    slotsAfterInsert ursAfterInsert insertTrace rfl (by rfl)⟩

/-- `reserve_physical_undo` does not change the planner's header
decision. -/
theorem reserve_preserves_header_size (slots : SlotTable)
    (urs : UndoRecordSet) (logno t : Nat) :
    prepare_header_size ((reserve_physical_undo slots urs logno t).2.1) =
      prepare_header_size urs := by
  simp only [reserve_physical_undo]
  repeat' split
  all_goals rfl

/-- A successful `prepareAttempt` returns the header size the planner
computed for the returned URS. -/
theorem prepareAttempt_inr (slots : SlotTable) (urs : UndoRecordSet)
    (record_size : Nat) (cntc : Option Nat) (slots' : SlotTable)
    (urs' : UndoRecordSet) (b hs : Nat) (c' : Option Nat)
    (h : prepareAttempt slots urs record_size cntc =
      .inr (slots', urs', b, hs, c')) :
    hs = prepare_header_size urs' := by
  simp only [prepareAttempt] at h
  split at h
  · split at h
    · cases h
      exact (reserve_preserves_header_size _ _ _ _).symm
    · split at h <;> cases h
  · cases h

/-- The reservation loop returns the header size computed for the
returned URS. -/
theorem undoPrepareLoop_header_size (record_size : Nat)
    (newLogs : List UndoLogSlotState) :
    ∀ slots urs cntc slots' urs' b hs c',
      undoPrepareLoop record_size newLogs slots urs cntc =
        .ok (slots', urs', b, hs, c') →
      hs = prepare_header_size urs' := by
  induction newLogs with
  | nil =>
    intro slots urs cntc slots' urs' b hs c' h
    rw [undoPrepareLoop] at h
    split at h
    · rename_i done hatt
      obtain ⟨s1, u1, b1, hs1, c1⟩ := done
      cases h
      exact prepareAttempt_inr _ _ _ _ _ _ _ _ _ hatt
    · cases h
  | cons s rest ih =>
    intro slots urs cntc slots' urs' b hs c' h
    rw [undoPrepareLoop] at h
    split at h
    · rename_i done hatt
      obtain ⟨s1, u1, b1, hs1, c1⟩ := done
      cases h
      exact prepareAttempt_inr _ _ _ _ _ _ _ _ _ hatt
    · exact ih _ _ _ _ _ _ _ _ h

/-- `UndoPrepareToMarkChunkClosed` changes only buffers and chunk
bookkeeping: the header-planning fields and `begin` are untouched. -/
theorem prepMarkClosed_preserves (urs : UndoRecordSet) (i : Nat) :
    prepare_header_size (UndoPrepareToMarkChunkClosed urs i) =
      prepare_header_size urs ∧
    (UndoPrepareToMarkChunkClosed urs i).begin_ = urs.begin_ := by
  refine ⟨?_, ?_⟩ <;>
    · simp only [UndoPrepareToMarkChunkClosed, find_or_read_buffer]
      repeat' split
      all_goals rfl

/-- **C4.** When `UndoPrepareToInsert` succeeds, it returns the reserved
position `begin` advanced by `header_size` in usable bytes, where
`header_size` is 0 if no chunk header is needed, the chunk-header size if
only a chunk header is needed, and chunk-header size plus
`type_header_size` if a type header is also needed — the returned URP
points at the caller's first data byte, past any headers the planner
decided to prepend. -/
theorem undoPrepareToInsert_returns_past_headers
    (slots : SlotTable) (urs : UndoRecordSet) (record_size : Nat)
    (newLogs : List UndoLogSlotState) (slots' : SlotTable)
    (urs' : UndoRecordSet) (ret : Nat)
    (hok : UndoPrepareToInsert slots urs record_size newLogs =
      .ok (slots', urs', ret)) :
    ret = UndoRecPtrPlusUsableBytes urs'.begin_
      (if ¬urs'.need_chunk_header then 0
       else if ¬urs'.need_type_header then SizeOfUndoRecordSetChunkHeader
       else SizeOfUndoRecordSetChunkHeader + urs'.type_header_size) := by
  show ret = UndoRecPtrPlusUsableBytes urs'.begin_ (prepare_header_size urs')
  unfold UndoPrepareToInsert at hok
  split at hok
  · cases hok
  · rename_i slots1 urs1 b hs cntc hloop
    split at hok
    · cases hok
    · cases hok
      have hhs := undoPrepareLoop_header_size record_size newLogs
        slots urs none _ _ _ _ _ hloop
      cases cntc with
      | none => simp [hhs, prepare_header_size]
      | some i =>
        have hp := prepMarkClosed_preserves
          { urs1 with
            buffers := pinBuffersLoop (UndoRecPtrGetLogNo b)
              (record_size + hs) (record_size + hs)
              (UndoRecPtrGetBlockNum b) (UndoRecPtrGetPageOffset b),
            begin_ := b } i
        rw [hp.1, hp.2]
        simp [hhs, prepare_header_size]

/-- Witness for C4: preparing a 16-byte insert on the sample URS (chunk
and type headers both needed, 28 header bytes) returns `begin + 28`
usable bytes, the caller's first data byte. -/
theorem undoPrepareToInsert_returns_past_headers_witness :
    UndoPrepareToInsert sampleSlots
        { sampleURSPrepared with buffers := [] } 16 [] =
      .ok (sampleSlots, ursAfterPrepare, 7696581399460) ∧
    7696581399460 = UndoRecPtrPlusUsableBytes ursAfterPrepare.begin_
      (if ¬ursAfterPrepare.need_chunk_header then 0
       else if ¬ursAfterPrepare.need_type_header then
        SizeOfUndoRecordSetChunkHeader
       else SizeOfUndoRecordSetChunkHeader +
        ursAfterPrepare.type_header_size) :=
  ⟨by rfl,
   undoPrepareToInsert_returns_past_headers sampleSlots
     { sampleURSPrepared with buffers := [] } 16 [] sampleSlots
     ursAfterPrepare 7696581399460 (by rfl)⟩

/-- With fuel exceeding the distance to the page end, the final-page walk
realises exactly the behaviour described by `FinalChunkWalk` (the fuel
branch is unreachable). -/
theorem walkChunks_sound (bytes : Nat → Nat) (ip : Nat) :
    ∀ fuel off, BLCKSZ < fuel + 1 + off →
      FinalChunkWalk bytes ip off
        (walkChunksOnFinalPage bytes ip (fuel + 1) off) := by
  intro fuel
  induction fuel with
  | zero =>
    intro off h
    rw [walkChunksOnFinalPage]
    rw [if_pos (by simp only [BLCKSZ, sizeofUndoLogOffset] at *; omega)]
    exact .size_field_off_page off
      (by simp only [BLCKSZ, sizeofUndoLogOffset] at *; omega)
  | succ f ih =>
    intro off h
    rw [walkChunksOnFinalPage]
    by_cases h1 : BLCKSZ - sizeofUndoLogOffset < off
    · rw [if_pos h1]
      exact .size_field_off_page off h1
    · rw [if_neg h1]
      by_cases h2 : BLCKSZ < off + readChunkSize bytes off
      · rw [if_pos h2]
        exact .chunk_off_page off (by omega) h2
      · rw [if_neg h2]
        by_cases h3 : ip < off + readChunkSize bytes off
        · rw [if_pos h3]
          exact .chunk_past_insertion off (by omega) (by omega) h3
        · rw [if_neg h3]
          by_cases h4 : readChunkSize bytes off = 0 ∨
              off + readChunkSize bytes off = ip
          · rw [if_pos h4]
            exact .found off (by omega) (by omega) (by omega) h4
          · rw [if_neg h4]
            push_neg at h4
            refine .step off _ (by omega) (by omega) (by omega) h4.1 h4.2
              (ih (off + readChunkSize bytes off) ?_)
            have hsz : readChunkSize bytes off ≠ 0 := h4.1
            omega

/-- **C6.** Crash-recovery scanning of a log's final page: when no chunk
starts on the page (`ud_first_chunk = 0`) the function returns the page
header's `ud_continue_chunk`; when a chunk starts on the page
(`ud_first_chunk > 0`) the outcome is exactly the walk described by
`FinalChunkWalk` — walk forward chunk by chunk adding each size, return
the page-relative URP (`page_begin_urp + offset`) of the first chunk with
size 0 or whose end equals `ud_insertion_point`, and ERROR when a size
field would run past the page, a chunk would extend beyond the page, or a
chunk would extend past `ud_insertion_point`. -/
theorem find_start_of_chunk_spec (p : UndoPage) (b : Nat) :
    (p.ud_first_chunk = 0 →
      find_start_of_chunk_on_final_page p b = .ok p.ud_continue_chunk) ∧
    (0 < p.ud_first_chunk →
      ∃ r, FinalChunkWalk p.bytes p.ud_insertion_point p.ud_first_chunk
          r ∧
        find_start_of_chunk_on_final_page p b =
          (match r with
           | .ok off => .ok (b + off)
           | .error e => .error e)) := by
  constructor
  · intro h
    simp [find_start_of_chunk_on_final_page, h]
  · intro h
    refine ⟨walkChunksOnFinalPage p.bytes p.ud_insertion_point BLCKSZ
      p.ud_first_chunk, ?_, ?_⟩
    · have hb : BLCKSZ - 1 + 1 = BLCKSZ := by decide
      rw [← hb]
      exact walkChunks_sound p.bytes p.ud_insertion_point (BLCKSZ - 1)
        p.ud_first_chunk (by simp only [BLCKSZ] at *; omega)
    · unfold find_start_of_chunk_on_final_page
      rw [if_pos h]

/-- Witness for C6: a page whose first chunk (at offset 24, size 40) is
followed by an open chunk of size 0 at offset 64.  The walk applies. -/
theorem find_start_of_chunk_spec_witness :
    0 < samplePage.ud_first_chunk ∧
    ∃ r, FinalChunkWalk samplePage.bytes samplePage.ud_insertion_point
        samplePage.ud_first_chunk r ∧
      find_start_of_chunk_on_final_page samplePage 0 =
        (match r with
         | .ok off => .ok (0 + off)
         | .error e => .error e) :=
  ⟨by decide, (find_start_of_chunk_spec samplePage 0).2 (by decide)⟩

/-- **C9.** `UndoDestroy` is legal from any state other than DIRTY (CLEAN
or CLOSED): it returns every owned log slot (`slotPut` for each chunk) and
removes the set from the live list.  On a DIRTY set it is fatal (modelled
as the PANIC error), and no slot is returned in that case. -/
theorem undoDestroy_spec (live : List UndoRecordSet)
    (urs : UndoRecordSet) :
    (urs.state ≠ URS_STATE_DIRTY →
      UndoDestroy live urs =
        .ok (live.erase urs,
          urs.chunks.map (fun c => Ev.slotPut c.slot_logno))) ∧
    (urs.state = URS_STATE_DIRTY →
      UndoDestroy live urs =
        .error "PANIC: dirty undo record set not closed before release")
    := by
  constructor <;> intro h <;> simp [UndoDestroy, h]

/-- Witness for C9: destroying the clean sample set succeeds and empties
the live list; destroying the dirty sample set panics. -/
theorem undoDestroy_spec_witness :
    UndoDestroy [sampleURSClean] sampleURSClean = .ok ([], []) ∧
    UndoDestroy [sampleURSDirty] sampleURSDirty =
      .error "PANIC: dirty undo record set not closed before release" := by
  constructor
  · have h := (undoDestroy_spec [sampleURSClean] sampleURSClean).1
      (by decide)
    simpa using h
  · exact (undoDestroy_spec [sampleURSDirty] sampleURSDirty).2 (by decide)

/-- **C10.** `UndoMarkClosed` on a URS in state CLEAN is a no-op: the URS
is returned unchanged (no buf-data staged, state still CLEAN, not CLOSED)
and no events occur (no page modified, no chunk size patched). -/
theorem undoMarkClosed_clean_noop
    (slots : SlotTable) (urs : UndoRecordSet)
    (h : urs.state = URS_STATE_CLEAN) :
    UndoMarkClosed slots urs = (urs, []) := by
  simp [UndoMarkClosed, h]

/-- Witness for C10: marking the clean sample URS closed changes nothing
and performs no event. -/
theorem undoMarkClosed_clean_noop_witness :
    sampleURSClean.state = URS_STATE_CLEAN ∧
    UndoMarkClosed sampleSlots sampleURSClean = (sampleURSClean, []) :=
  ⟨by decide, undoMarkClosed_clean_noop sampleSlots sampleURSClean
    (by decide)⟩

/-- **C5 counterexample.** A record whose only block stages a
`CLOSE_CHUNK` patch that spills onto a next page that is never
registered: after all blocks, `chunk_size_more` is still pending, yet
`UndoReplay` returns successfully instead of raising an ERROR — the
claim's "if any of record_more, header_more, or chunk_size_more is still
true" is false on the code, which tests only `header_more ||
record_more`. -/
theorem undoReplay_chunk_size_pending_no_error :
    ∃ st, UndoReplay straddleCloseRec false 0 sampleSlots (fun _ _ => 0) =
        .ok st ∧
      st.chunk_size_more = true :=
  ⟨_, rfl, rfl⟩

/-- **C5 (amended).** After all registered blocks have been consumed,
`UndoReplay` raises the "didn't fit" ERROR exactly when `header_more` or
`record_more` is still pending; a still-pending `chunk_size_more` is not
checked and does not prevent success. -/
theorem undoReplay_final_check (rec : XLogRecordInfo) (rd : Bool)
    (rs : Nat) (slots : SlotTable) (pages : PageMap) (st : ReplayState)
    (h : replayBlocks rec rec.blocks
      (initReplayState slots pages rd rs) = .ok st) :
    UndoReplay rec rd rs slots pages =
      (if st.header_more || st.record_more then
        .error "undo data didn't fit on registered buffers"
       else .ok st) := by
  unfold UndoReplay
  rw [h]

/-- Witness for the amended C5 on the straddling sample record. -/
theorem undoReplay_final_check_witness :
    ∃ st, replayBlocks straddleCloseRec straddleCloseRec.blocks
        (initReplayState sampleSlots (fun _ _ => 0) false 0) = .ok st ∧
      UndoReplay straddleCloseRec false 0 sampleSlots (fun _ _ => 0) =
        (if st.header_more || st.record_more then
          .error "undo data didn't fit on registered buffers"
         else .ok st) :=
  ⟨_, rfl, undoReplay_final_check straddleCloseRec false 0 sampleSlots
    (fun _ _ => 0) _ rfl⟩

/-- Characterisation of the commit/prepare derivation: on success,
`isCommit` holds exactly for the commit op masks and `isPrepare` exactly
for prepare; it errors exactly when the rmgr is not `RM_XACT_ID` or the
op mask is not one of the five standard transaction operations. -/
theorem xactCloseFlags_spec (rmid info : Nat) :
    (∀ c p, xactCloseFlags rmid info = .ok (c, p) →
      (c = true ↔
        (info &&& (255 - XLR_INFO_MASK)) &&& XLOG_XACT_OPMASK =
            XLOG_XACT_COMMIT ∨
          (info &&& (255 - XLR_INFO_MASK)) &&& XLOG_XACT_OPMASK =
            XLOG_XACT_COMMIT_PREPARED) ∧
      (p = true ↔
        (info &&& (255 - XLR_INFO_MASK)) &&& XLOG_XACT_OPMASK =
          XLOG_XACT_PREPARE)) ∧
    ((∃ e, xactCloseFlags rmid info = .error e) ↔
      (rmid ≠ RM_XACT_ID ∨
        (¬((info &&& (255 - XLR_INFO_MASK)) &&& XLOG_XACT_OPMASK =
              XLOG_XACT_COMMIT ∨
            (info &&& (255 - XLR_INFO_MASK)) &&& XLOG_XACT_OPMASK =
              XLOG_XACT_COMMIT_PREPARED) ∧
         ¬((info &&& (255 - XLR_INFO_MASK)) &&& XLOG_XACT_OPMASK =
              XLOG_XACT_ABORT ∨
            (info &&& (255 - XLR_INFO_MASK)) &&& XLOG_XACT_OPMASK =
              XLOG_XACT_ABORT_PREPARED) ∧
         (info &&& (255 - XLR_INFO_MASK)) &&& XLOG_XACT_OPMASK ≠
           XLOG_XACT_PREPARE))) := by
  constructor
  · intro c p h
    simp only [xactCloseFlags] at h
    split at h
    · exact Except.noConfusion h
    · rename_i hrm
      split at h
      · rename_i hcm
        cases h
        constructor
        · simp only [true_iff]
          exact hcm
        · simp only [Bool.false_eq_true, false_iff,
            XLOG_XACT_COMMIT, XLOG_XACT_COMMIT_PREPARED,
            XLOG_XACT_PREPARE] at *
          omega
      · rename_i hcm
        split at h
        · rename_i ham
          cases h
          constructor
          · simp only [Bool.false_eq_true, false_iff]
            exact hcm
          · simp only [Bool.false_eq_true, false_iff,
              XLOG_XACT_ABORT, XLOG_XACT_ABORT_PREPARED,
              XLOG_XACT_PREPARE] at *
            omega
        · rename_i ham
          split at h
          · rename_i hpm
            cases h
            constructor
            · simp only [Bool.false_eq_true, false_iff]
              exact hcm
            · simp only [true_iff]
              exact hpm
          · exact Except.noConfusion h
  · constructor
    · rintro ⟨e, he⟩
      simp only [xactCloseFlags] at he
      split at he
      · rename_i hrm
        exact Or.inl hrm
      · split at he
        · exact Except.noConfusion he
        · split at he
          · exact Except.noConfusion he
          · split at he
            · exact Except.noConfusion he
            · rename_i h2 h3 h4
              exact Or.inr ⟨h2, h3, h4⟩
    · intro h
      simp only [xactCloseFlags]
      by_cases h1 : rmid ≠ RM_XACT_ID
      · rw [if_pos h1]
        exact ⟨_, rfl⟩
      · rw [if_neg h1]
        rcases h with h | ⟨hc, ha, hp⟩
        · exact absurd h h1
        · rw [if_neg hc, if_neg ha, if_neg hp]
          exact ⟨_, rfl⟩

/-- Under the C8 hypotheses (block in use in the undo database, buf-data
carrying only `CLOSE_CHUNK`/`CLOSE` flags, no pending continuations, no
record), processing the block reduces to the `CLOSE_CHUNK` handling. -/
theorem replayBlock_close_reduce (rec : XLogRecordInfo) (s : ReplayState)
    (blk : DecodedBlock)
    (hin : blk.in_use = true) (hdb : blk.is_undo_db = true)
    (hins : hasFlag blk.bufdata.flags URS_XLOG_INSERT = false)
    (hcr : hasFlag blk.bufdata.flags URS_XLOG_CREATE = false)
    (hac : hasFlag blk.bufdata.flags URS_XLOG_ADD_CHUNK = false)
    (hcsm : s.chunk_size_more = false) (hhm : s.header_more = false)
    (hrm : s.record_more = false) (hrd : s.record_data = false) :
    replayBlock rec s blk =
      Except.map (fun r => r.1)
        (applyCloseChunk rec
          { s with slots := replayExtendSlot s.slots blk,
                   record_data := false, record_more := false,
                   header_more := false, chunk_size_more := false }
          blk (blk.restored || blk.notfound)) := by
  unfold replayBlock replayBlockTail applyInsertPageOffset applyCreate
    applyAddChunk applyRecordData
  simp only [hin, hdb, hins, hcr, hac, hcsm, hhm, hrm, hrd,
    Bool.and_self, Bool.not_true, Bool.false_eq_true, if_false,
    Bool.true_and, ite_false, Bool.false_and]
  cases happ : applyCloseChunk rec
      { s with slots := replayExtendSlot s.slots blk,
               record_data := false, record_more := false,
               header_more := false, chunk_size_more := false }
      blk (blk.restored || blk.notfound) with
  | error e => simp [happ, Except.map]
  | ok r => simp [happ, Except.map]

/-- For a transaction close (`CLOSE_CHUNK` with `CLOSE`,
`URST_TRANSACTION`), the `CLOSE_CHUNK` handling propagates the
commit/prepare derivation's ERROR, and on success emits the xact-undo
callback with the derived flags and the begin/end URPs from the
buf-data. -/
theorem applyCloseChunk_xact (rec : XLogRecordInfo) (s : ReplayState)
    (blk : DecodedBlock) (skip : Bool)
    (hcc : hasFlag blk.bufdata.flags URS_XLOG_CLOSE_CHUNK = true)
    (hty : blk.bufdata.urs_type = URST_TRANSACTION)
    (hcl : hasFlag blk.bufdata.flags URS_XLOG_CLOSE = true) :
    (∀ e, xactCloseFlags rec.rmid rec.info = .error e →
      applyCloseChunk rec s blk skip = .error e) ∧
    (∀ c p, xactCloseFlags rec.rmid rec.info = .ok (c, p) →
      ∃ st b, applyCloseChunk rec s blk skip = .ok (st, b) ∧
        Ev.xactCallback blk.bufdata.type_header
          (if hasFlag blk.bufdata.flags URS_XLOG_CLOSE_MULTI_CHUNK then
            blk.bufdata.first_chunk_header_location
           else
            MakeUndoRecPtr blk.logno
              (blk.blkno * BLCKSZ + blk.bufdata.chunk_size_page_offset))
          (MakeUndoRecPtr blk.logno
            (blk.blkno * BLCKSZ + blk.bufdata.chunk_size_page_offset +
              blk.bufdata.chunk_size)) c p ∈ st.trace) := by
  constructor
  · intro e he
    simp [applyCloseChunk, hcc, hty, hcl, he]
  · intro c p hok
    simp only [applyCloseChunk, hcc, hty, hcl, hok, if_true]
    simp only [eq_self_iff_true, true_and, and_true, if_pos]
    split
    all_goals split
    all_goals exact ⟨_, _, rfl, by simp⟩

/-- **C8.** In `UndoReplay`, when a block's buf-data carries
`CLOSE_CHUNK` together with `CLOSE` and the `urs_type` is
`URST_TRANSACTION` (and the block carries no other work), the close
callback is invoked with `is_commit` true iff the record's op mask is
`XLOG_XACT_COMMIT` or `XLOG_XACT_COMMIT_PREPARED` and `is_prepare` true
iff it is `XLOG_XACT_PREPARE`; an ERROR is raised if the record's
resource manager is not `RM_XACT_ID` or its op mask is not one of the
standard transaction operations. -/
theorem undoReplay_close_callback_spec (rec : XLogRecordInfo)
    (s : ReplayState) (blk : DecodedBlock)
    (hin : blk.in_use = true) (hdb : blk.is_undo_db = true)
    (hcc : hasFlag blk.bufdata.flags URS_XLOG_CLOSE_CHUNK = true)
    (hcl : hasFlag blk.bufdata.flags URS_XLOG_CLOSE = true)
    (hty : blk.bufdata.urs_type = URST_TRANSACTION)
    (hins : hasFlag blk.bufdata.flags URS_XLOG_INSERT = false)
    (hcr : hasFlag blk.bufdata.flags URS_XLOG_CREATE = false)
    (hac : hasFlag blk.bufdata.flags URS_XLOG_ADD_CHUNK = false)
    (hcsm : s.chunk_size_more = false) (hhm : s.header_more = false)
    (hrm : s.record_more = false) (hrd : s.record_data = false) :
    ((rec.rmid ≠ RM_XACT_ID ∨
        (¬((rec.info &&& (255 - XLR_INFO_MASK)) &&& XLOG_XACT_OPMASK =
              XLOG_XACT_COMMIT ∨
            (rec.info &&& (255 - XLR_INFO_MASK)) &&& XLOG_XACT_OPMASK =
              XLOG_XACT_COMMIT_PREPARED) ∧
         ¬((rec.info &&& (255 - XLR_INFO_MASK)) &&& XLOG_XACT_OPMASK =
              XLOG_XACT_ABORT ∨
            (rec.info &&& (255 - XLR_INFO_MASK)) &&& XLOG_XACT_OPMASK =
              XLOG_XACT_ABORT_PREPARED) ∧
         (rec.info &&& (255 - XLR_INFO_MASK)) &&& XLOG_XACT_OPMASK ≠
           XLOG_XACT_PREPARE)) →
      ∃ e, replayBlock rec s blk = .error e) ∧
    (∀ c p, xactCloseFlags rec.rmid rec.info = .ok (c, p) →
      (c = true ↔
        (rec.info &&& (255 - XLR_INFO_MASK)) &&& XLOG_XACT_OPMASK =
            XLOG_XACT_COMMIT ∨
          (rec.info &&& (255 - XLR_INFO_MASK)) &&& XLOG_XACT_OPMASK =
            XLOG_XACT_COMMIT_PREPARED) ∧
      (p = true ↔
        (rec.info &&& (255 - XLR_INFO_MASK)) &&& XLOG_XACT_OPMASK =
          XLOG_XACT_PREPARE) ∧
      ∃ st, replayBlock rec s blk = .ok st ∧
        Ev.xactCallback blk.bufdata.type_header
          (if hasFlag blk.bufdata.flags URS_XLOG_CLOSE_MULTI_CHUNK then
            blk.bufdata.first_chunk_header_location
           else
            MakeUndoRecPtr blk.logno
              (blk.blkno * BLCKSZ + blk.bufdata.chunk_size_page_offset))
          (MakeUndoRecPtr blk.logno
            (blk.blkno * BLCKSZ + blk.bufdata.chunk_size_page_offset +
              blk.bufdata.chunk_size)) c p ∈ st.trace) := by
  have hred := replayBlock_close_reduce rec s blk hin hdb hins hcr hac
    hcsm hhm hrm hrd
  have hacc := applyCloseChunk_xact rec
    { s with slots := replayExtendSlot s.slots blk,
             record_data := false, record_more := false,
             header_more := false, chunk_size_more := false }
    blk (blk.restored || blk.notfound) hcc hty hcl
  have hspec := xactCloseFlags_spec rec.rmid rec.info
  constructor
  · intro hbad
    obtain ⟨e, he⟩ := hspec.2.mpr hbad
    refine ⟨e, ?_⟩
    rw [hred, hacc.1 e he]
    rfl
  · intro c p hok
    refine ⟨(hspec.1 c p hok).1, (hspec.1 c p hok).2, ?_⟩
    obtain ⟨st, b, happ, hmem⟩ := hacc.2 c p hok
    refine ⟨st, ?_, hmem⟩
    rw [hred, happ]
    rfl

/-- Witness: replaying a commit record carrying a transaction
`CLOSE_CHUNK`+`CLOSE` block delivers the close callback with
`is_commit = true`, `is_prepare = false`. -/
theorem undoReplay_close_callback_spec_witness :
    ∃ st, replayBlock c8CloseRec c8InitState c8CloseBlock = .ok st ∧
      Ev.xactCallback c8CloseBlock.bufdata.type_header
        (if hasFlag c8CloseBlock.bufdata.flags
            URS_XLOG_CLOSE_MULTI_CHUNK then
          c8CloseBlock.bufdata.first_chunk_header_location
         else
          MakeUndoRecPtr c8CloseBlock.logno
            (c8CloseBlock.blkno * BLCKSZ +
              c8CloseBlock.bufdata.chunk_size_page_offset))
        (MakeUndoRecPtr c8CloseBlock.logno
          (c8CloseBlock.blkno * BLCKSZ +
            c8CloseBlock.bufdata.chunk_size_page_offset +
              c8CloseBlock.bufdata.chunk_size)) true false ∈ st.trace :=
  ((undoReplay_close_callback_spec c8CloseRec c8InitState c8CloseBlock
      rfl rfl (by decide) (by decide) rfl (by decide) (by decide)
      (by decide) rfl rfl rfl rfl).2 true false rfl).2.2

/-- **C7.** Replaying a commit record whose transaction `CLOSE_CHUNK`
size patch straddles two pages: the code delivers the
`XactUndoCloseRecordSet` callback after the first-page overwrite but
BEFORE the spilled second-page overwrite, as the resulting event trace
shows (the callback sits between the two overwrites).  The claim — and
the spec's stated choice — requires the callback only after both
overwrites; the source itself flags this ordering as suspect
("XXX IS it OK that we delivered the callback before writing the part
the spills onto the next page?"). -/
theorem undoReplay_callback_before_second_overwrite :
    ∃ st, UndoReplay xactCloseRec false 0 sampleSlots (fun _ _ => 0) =
        .ok st ∧
      st.trace =
        [Ev.overwrite 3 5 (BLCKSZ - 4) 0 4 104,
         Ev.xactCallback [9, 9]
           (MakeUndoRecPtr 3 (5 * BLCKSZ + (BLCKSZ - 4)))
           (MakeUndoRecPtr 3 (5 * BLCKSZ + (BLCKSZ - 4) + 104))
           true false,
         Ev.overwrite 3 6 SizeOfUndoPageHeaderData 4 4 104,
         Ev.markDirty 6] :=
  ⟨_, rfl, rfl⟩

end UndoRS
